import Mathlib

/-!
Shallow embedding of `src/isaac_like.cpp` (a small top-down dungeon-crawler
demo) and proofs about its dungeon generator, room population, per-tick
simulation phases, damage/invulnerability logic, door transitions and the
run state machine.

Modelling conventions:
* C++ `float` arithmetic is embedded as exact rational arithmetic (`ℚ`);
  `std::sqrt` is embedded as `Rat.sqrt`, which agrees with the real square
  root on perfect squares (all concrete inputs used in witnesses are chosen
  so that the square roots involved are exact).
* Machine `int` is embedded as `ℤ` (no overflow is reachable: all values
  stay tiny).
* The RNG (`std::mt19937_64` behind `uniform_int_distribution`,
  `uniform_real_distribution` and `std::shuffle`) is embedded as two
  arbitrary streams, one of naturals and one of rationals, consumed at an
  explicitly threaded position; `randint a b` maps a stream value into
  `[a,b]` by `a + n % (b-a+1)`, `randf a b` maps into `[a,b)` using the
  fractional part, and `std::shuffle` over the 4 directions is embedded as
  the Fisher-Yates network it specifies (3 bounded draws).  Quantifying
  over all streams covers every outcome the C++ RNG can produce.
* The `while` carve loop is embedded with an explicit fuel parameter so the
  definition is structurally recursive and executable; since the target
  room count is at most 9, the real loop performs at most 17 iterations
  (each iteration either raises `made`, capped at 9, or pops the stack,
  whose pushes are bounded by the carves), so fuel 100 is never exhausted
  and the embedding computes exactly the loop's result.
-/

namespace Isaac

/-- Fixed simulation timestep: the game updates at 120 Hz (`dt = 1.0/120.0`). -/
def dt : ℚ := 1 / 120

/-- Window width in pixels (`WIDTH`). -/
def WIDTH : ℤ := 960

/-- Window height in pixels (`HEIGHT`). -/
def HEIGHT : ℤ := 540

/-- Grid width in rooms (`GRID_W`). -/
def GRID_W : ℕ := 5

/-- Grid height in rooms (`GRID_H`). -/
def GRID_H : ℕ := 5

/-- Room pixel width (`ROOM_W`). -/
def ROOM_W : ℚ := 720

/-- Room pixel height (`ROOM_H`). -/
def ROOM_H : ℚ := 400

/-- Room left edge (`ROOM_X = (WIDTH - ROOM_W) / 2 = 120`). -/
def ROOM_X : ℚ := 120

/-- Room top edge (`ROOM_Y = (HEIGHT - ROOM_H) / 2 = 70`). -/
def ROOM_Y : ℚ := 70

/-- Door slot width (`DOOR_W`). -/
def DOOR_W : ℚ := 80

/-- Door slot depth (`DOOR_H`). -/
def DOOR_H : ℚ := 18

/-- 2D vector over exact rationals (struct `Vec`). -/
structure Vec where
  x : ℚ
  y : ℚ
deriving DecidableEq, Repr

/-- Vector addition (`Vec::operator+`). -/
def Vec.add (a b : Vec) : Vec := ⟨a.x + b.x, a.y + b.y⟩

/-- Vector subtraction (`Vec::operator-`). -/
def Vec.sub (a b : Vec) : Vec := ⟨a.x - b.x, a.y - b.y⟩

/-- Scalar multiplication (`Vec::operator*`). -/
def Vec.smul (a : Vec) (s : ℚ) : Vec := ⟨a.x * s, a.y * s⟩

/-- Dot product (`dot`). -/
def dot (a b : Vec) : ℚ := a.x * b.x + a.y * b.y

/-- Newton iteration for the integer square root, structurally recursive on
an explicit fuel so that the kernel can evaluate it.  Starting from guess
`n`, the sequence is strictly decreasing until it reaches the floor square
root, so 64 iterations are ample for every number appearing in this
development. -/
def sqrtIter : ℕ → ℕ → ℕ → ℕ
  | 0, _, g => g
  | fuel + 1, n, g =>
    let g2 := (g + n / g) / 2
    if g2 < g then sqrtIter fuel n g2 else g

/-- Floor square root on naturals (kernel-computable stand-in for
`Nat.sqrt`). -/
def natSqrt (n : ℕ) : ℕ := if n ≤ 1 then n else sqrtIter 64 n n

/-- Floor square root on integers (0 on negatives, like `Int.sqrt`). -/
def intSqrt (i : ℤ) : ℤ := Int.ofNat (natSqrt i.toNat)

/-- Floor square root on rationals, the same shape as Mathlib's
`Rat.sqrt`; it agrees with the real square root on perfect squares, which
covers every concrete length computed in this development.  This is the
embedding of the C++ `std::sqrt` on `float`. -/
def ratSqrt (q : ℚ) : ℚ := mkRat (intSqrt q.num) (natSqrt q.den)

/-- Euclidean length (`len`); `std::sqrt` is embedded as `ratSqrt`, exact
on perfect squares. -/
def len (a : Vec) : ℚ := ratSqrt (dot a a)

/-- Normalisation (`norm`): returns the zero vector on zero length. -/
def norm (a : Vec) : Vec :=
  if 0 < len a then a.smul (1 / len a) else ⟨0, 0⟩

/-- Scalar clamp (template `clamp`). -/
def clampQ (v lo hi : ℚ) : ℚ := if v < lo then lo else if v > hi then hi else v

/-- Axis-aligned rectangle (Win32 `RECT`, embedded over `ℚ`). -/
structure Rect where
  left : ℚ
  top : ℚ
  right : ℚ
  bottom : ℚ
deriving DecidableEq, Repr

/-- Win32 `InflateRect`: grow a rectangle by `d` on every side. -/
def inflateRect (rc : Rect) (d : ℚ) : Rect :=
  ⟨rc.left - d, rc.top - d, rc.right + d, rc.bottom + d⟩

/-- Circle/rectangle overlap test (`circleRectOverlap`): clamp the centre
into the rectangle and compare the squared distance with `r²`. -/
def circleRectOverlap (c : Vec) (r : ℚ) (rc : Rect) : Bool :=
  let nx := clampQ c.x rc.left rc.right
  let ny := clampQ c.y rc.top rc.bottom
  let dx := c.x - nx
  let dy := c.y - ny
  decide (dx * dx + dy * dy ≤ r * r)

/-- The circle-circle overlap test the source inlines at each collision
site: squared distance at most the squared sum of radii
(`dx * dx + dy * dy <= rr` with `rr = (r1 + r2)^2`). -/
def circlesOverlap (p1 : Vec) (r1 : ℚ) (p2 : Vec) (r2 : ℚ) : Prop :=
  (p1.x - p2.x) * (p1.x - p2.x) + (p1.y - p2.y) * (p1.y - p2.y) ≤
    (r1 + r2) * (r1 + r2)

instance (p1 : Vec) (r1 : ℚ) (p2 : Vec) (r2 : ℚ) :
    Decidable (circlesOverlap p1 r1 p2 r2) := by
  unfold circlesOverlap
  infer_instance

/-- A direction (`enum class Dir`): 0 = Up, 1 = Right, 2 = Down, 3 = Left.
The source casts the enum to `int` and computes the opposite via
`(d + 2) % 4`, so we embed directions as `Fin 4`. -/
def Dir : Type := Fin 4

instance : DecidableEq Dir := instDecidableEqFin 4

instance : Fintype Dir := Fin.fintype 4

/-- The `Dir::Up` constant. -/
def Dir.up : Dir := (0 : Fin 4)

/-- The `Dir::Right` constant. -/
def Dir.right : Dir := (1 : Fin 4)

/-- The `Dir::Down` constant. -/
def Dir.down : Dir := (2 : Fin 4)

/-- The `Dir::Left` constant. -/
def Dir.left : Dir := (3 : Fin 4)

/-- Opposite direction, `(int(d) + 2) % 4`. -/
def oppDir (d : Dir) : Dir := (⟨((d : Fin 4).val + 2) % 4, Nat.mod_lt _ (by omega)⟩ : Fin 4)

/-- Grid-coordinate delta of a direction, matching the source's
`nx = cur.x + (d == Right ? 1 : (d == Left ? -1 : 0))` and
`ny = cur.y + (d == Down ? 1 : (d == Up ? -1 : 0))`. -/
def dirDelta (d : Dir) : ℤ × ℤ :=
  if d = Dir.right then (1, 0)
  else if d = Dir.left then (-1, 0)
  else if d = Dir.down then (0, 1)
  else (0, -1)

/-- Unit direction vectors `DIRV` (screen coordinates, y grows downward). -/
def DIRV (d : Dir) : Vec :=
  if d = Dir.up then ⟨0, -1⟩
  else if d = Dir.right then ⟨1, 0⟩
  else if d = Dir.down then ⟨0, 1⟩
  else ⟨-1, 0⟩

/-- A bullet (struct `Bullet`). -/
structure Bullet where
  p : Vec
  v : Vec
  r : ℚ := 4
  ttl : ℚ := 11 / 10
  dead : Bool := false
deriving DecidableEq, Repr

/-- An enemy (struct `Enemy`); `kind = 0` is a chaser, `kind = 1` a
patroller. -/
structure Enemy where
  p : Vec
  r : ℚ := 12
  hp : ℚ := 2
  speed : ℚ := 55
  kind : ℕ := 0
  patrolDir : Vec := ⟨1, 0⟩
  dead : Bool := false
deriving DecidableEq, Repr

/-- A room (struct `Room`); the C++ field `exists` is a Lean keyword, so it
is embedded as `exists'`. -/
structure Room where
  exists' : Bool := false
  cleared : Bool := false
  boss : Bool := false
  doors : Dir → Bool := fun _ => false
  enemies : List Enemy := []

instance : Inhabited Room := ⟨{}⟩

/-- The player (struct `Player`); hp is an `int` in the source. -/
structure Player where
  p : Vec := ⟨0, 0⟩
  r : ℚ := 12
  speed : ℚ := 125
  hp : ℤ := 6
  shots : List Bullet := []
  shotCooldown : ℚ := 0

instance : Inhabited Player := ⟨{}⟩

/-- A grid coordinate `(x, y)` with both components in bounds; the source
carries raw ints plus the `inb` bounds predicate, and every stored
coordinate satisfies it. -/
def Cell : Type := Fin GRID_W × Fin GRID_H

instance : DecidableEq Cell := instDecidableEqProd

instance : Fintype Cell := instFintypeProd (Fin GRID_W) (Fin GRID_H)

/-- The dungeon (`Room g_dungeon[GRID_H][GRID_W]`), indexed by cell. -/
def Grid : Type := Cell → Room

/-- The all-default grid (every room reset to `Room{}`). -/
def initGrid : Grid := fun _ => {}

/-- Replace the room at one cell. -/
def updateRoom (g : Grid) (c : Cell) (f : Room → Room) : Grid :=
  fun c' => if c' = c then f (g c) else g c'

/-- The spawn cell, always the grid centre
(`cx = GRID_W/2 = 2`, `cy = GRID_H/2 = 2`); `g_startx`/`g_starty` are set
to it on every generation. -/
def spawnCell : Cell := (⟨2, by decide⟩, ⟨2, by decide⟩)

/-- In-bounds neighbour of a cell in a direction: embeds the source's
`nx = cur.x + dx`, `ny = cur.y + dy` guarded by `inb`. -/
def nbrCell (c : Cell) (d : Dir) : Option Cell :=
  let dx := (dirDelta d).1
  let dy := (dirDelta d).2
  let nx := (c.1 : ℤ) + dx
  let ny := (c.2 : ℤ) + dy
  if h : 0 ≤ nx ∧ nx < GRID_W ∧ 0 ≤ ny ∧ ny < GRID_H then
    some (⟨nx.toNat, by omega⟩, ⟨ny.toNat, by omega⟩)
  else none

/-- The RNG (`std::mt19937_64` behind the distribution adapters), embedded
as arbitrary streams of naturals and rationals consumed at an explicitly
threaded position.  Quantifying over all streams covers every outcome of
the C++ generator. -/
structure RNG where
  ints : ℕ → ℕ
  rats : ℕ → ℚ

/-- `RNG::randint(a, b)`: uniform draw from `[a, b]`; the embedding maps
the stream value into the interval, so the result is always in range. -/
def randNat (rng : RNG) (k : ℕ) (a b : ℕ) : ℕ := a + rng.ints k % (b + 1 - a)

/-- `RNG::randf(a, b)`: uniform draw from `[a, b)`; the embedding scales
the fractional part of the stream value into the interval. -/
def randQ (rng : RNG) (k : ℕ) (a b : ℚ) : ℚ :=
  a + (rng.rats k - Rat.floor (rng.rats k)) * (b - a)

/-- Swap two positions of a list (auxiliary for the Fisher-Yates shuffle). -/
def listSwap (l : List Dir) (i j : ℕ) : List Dir :=
  (l.set i (l.getD j Dir.up)).set j (l.getD i Dir.up)

/-- `std::shuffle` over the array `{Up, Right, Down, Left}`: the
Fisher-Yates network it specifies, consuming three bounded draws. -/
def shuffleDirs (rng : RNG) (k : ℕ) : List Dir × ℕ :=
  let l0 : List Dir := [Dir.up, Dir.right, Dir.down, Dir.left]
  let l1 := listSwap l0 3 (randNat rng k 0 3)
  let l2 := listSwap l1 2 (randNat rng (k + 1) 0 2)
  let l3 := listSwap l2 1 (randNat rng (k + 2) 0 1)
  (l3, k + 3)

/-- Scan the shuffled directions for the first one whose neighbour cell is
in bounds and not yet carved (the `for (Dir d : dirs)` loop body's guard
`if (!inb(nx, ny) || g_dungeon[ny][nx].exists) continue;`). -/
def firstFree (g : Grid) (c : Cell) : List Dir → Option (Dir × Cell)
  | [] => none
  | d :: ds =>
    match nbrCell c d with
    | some c' => if (g c').exists' then firstFree g c ds else some (d, c')
    | none => firstFree g c ds

/-- Carve one step: mark both cells existing and set the door bit on the
source room and the reciprocal bit on the destination room. -/
def carveAt (g : Grid) (cur nbr : Cell) (d : Dir) : Grid :=
  updateRoom
    (updateRoom
      (updateRoom (updateRoom g cur fun r => { r with exists' := true })
        nbr fun r => { r with exists' := true })
      cur fun r => { r with doors := Function.update r.doors d true })
    nbr fun r => { r with doors := Function.update r.doors (oppDir d) true }

/-- The randomized-DFS carve loop (`while (made < targetRooms &&
!stack.empty())`), structurally recursive on an explicit fuel; since the
target is at most 9 the real loop runs at most 17 iterations, so fuel 100
is never exhausted.  Returns the grid and the RNG position. -/
def carveLoop (rng : RNG) : ℕ → ℕ → Grid → List Cell → ℕ → ℕ → Grid × ℕ
  | 0, k, g, _, _, _ => (g, k)
  | fuel + 1, k, g, stack, made, target =>
    match stack with
    | [] => (g, k)
    | cur :: rest =>
      if made < target then
        match firstFree g cur (shuffleDirs rng k).1 with
        | some (d, nbr) =>
          carveLoop rng fuel (shuffleDirs rng k).2 (carveAt g cur nbr d)
            (nbr :: cur :: rest) (made + 1) target
        | none => carveLoop rng fuel (shuffleDirs rng k).2 g rest made target
      else (g, k)

/-- The carve stage of `carveDungeon`: reset the grid, draw the target room
count from `[6, 9]`, mark the centre existing and run the DFS.  Returns the
grid, the RNG position and the drawn target. -/
def carvePhase (rng : RNG) : Grid × ℕ × ℕ :=
  let target := randNat rng 0 6 9
  let g0 := updateRoom initGrid spawnCell (fun r => { r with exists' := true })
  ((carveLoop rng 100 1 g0 [spawnCell] 1 target).1,
   (carveLoop rng 100 1 g0 [spawnCell] 1 target).2, target)

/-- Squared grid distance to the spawn cell (the `dist` lambda; the spawn
is always the centre `(2, 2)`). -/
def distSq (c : Cell) : ℤ :=
  ((c.1 : ℤ) - 2) * ((c.1 : ℤ) - 2) + ((c.2 : ℤ) - 2) * ((c.2 : ℤ) - 2)

/-- The cells in the source's scan order: `y` outer, `x` inner
(row-major). -/
def scanCells : List Cell :=
  (List.finRange GRID_H).flatMap fun y => (List.finRange GRID_W).map fun x => (x, y)

/-- One step of the boss-selection scan: keep the first existing room of
maximal squared distance (`if (d > best) { best = d; bx = x; by = y; }`). -/
def bossStep (g : Grid) (st : ℤ × Cell) (c : Cell) : ℤ × Cell :=
  if (g c).exists' then (if distSq c > st.1 then (distSq c, c) else st) else st

/-- The boss-selection scan over a cell list. -/
def bossScan (g : Grid) : List Cell → ℤ × Cell → ℤ × Cell
  | [], st => st
  | c :: cs, st => bossScan g cs (bossStep g st c)

/-- The boss cell: scan the grid in row-major order starting from
`best = -1`, `(bx, by) = (startx, starty)`. -/
def bossCell (g : Grid) : Cell := (bossScan g scanCells (-1, spawnCell)).2

/-- Flag the boss room (`g_dungeon[by][bx].boss = true`). -/
def bossPhase (g : Grid) : Grid :=
  updateRoom g (bossCell g) (fun r => { r with boss := true })

/-- Build the enemy list of one room (`for (int i = 0; i < count; ++i)`):
two positional draws per enemy, a kind draw except in the boss room (where
kind alternates by index parity and stats get fixed boosts). -/
def mkEnemies (rng : RNG) (bossR : Bool) : ℕ → ℕ → ℕ → List Enemy × ℕ
  | 0, k, _ => ([], k)
  | n + 1, k, i =>
    let px := randQ rng k (ROOM_X + 40) (ROOM_X + ROOM_W - 40)
    let py := randQ rng (k + 1) (ROOM_Y + 40) (ROOM_Y + ROOM_H - 40)
    let kind := if bossR then i % 2 else randNat rng (k + 2) 0 1
    let k2 := if bossR then k + 2 else k + 3
    let e : Enemy :=
      if bossR then { p := ⟨px, py⟩, kind := kind, hp := 4, r := 14, speed := 70 }
      else { p := ⟨px, py⟩, kind := kind }
    (e :: (mkEnemies rng bossR n k2 (i + 1)).1, (mkEnemies rng bossR n k2 (i + 1)).2)

/-- `spawnEnemies(Room&)`: draw a count in `[2, 5]` (overridden to 6 for
the boss room, though the draw is still consumed), build the enemies, and
recompute `cleared = enemies.empty()`. -/
def spawnEnemies (rng : RNG) (k : ℕ) (r : Room) : Room × ℕ :=
  let count0 := randNat rng k 2 5
  let count := if r.boss then 6 else count0
  let es := (mkEnemies rng r.boss count (k + 1) 0).1
  ({ r with enemies := es, cleared := es.isEmpty },
   (mkEnemies rng r.boss count (k + 1) 0).2)

/-- The population loop over a cell list: the spawn room is only marked
cleared; every other existing room is populated. -/
def popLoop (rng : RNG) : List Cell → Grid → ℕ → Grid × ℕ
  | [], g, k => (g, k)
  | c :: cs, g, k =>
    if (g c).exists' then
      if c = spawnCell then
        popLoop rng cs (updateRoom g c fun r => { r with cleared := true }) k
      else
        popLoop rng cs (updateRoom g c fun _ => (spawnEnemies rng k (g c)).1)
          (spawnEnemies rng k (g c)).2
    else popLoop rng cs g k

/-- The population pass of `carveDungeon` over the whole grid. -/
def populatePhase (rng : RNG) (k : ℕ) (g : Grid) : Grid × ℕ :=
  popLoop rng scanCells g k

/-- `carveDungeon()`: carve, pick the boss room, populate.  Returns the
grid, the final RNG position, and the drawn target room count. -/
def carveDungeon (rng : RNG) : Grid × ℕ × ℕ :=
  ((populatePhase rng (carvePhase rng).2.1 (bossPhase (carvePhase rng).1)).1,
   (populatePhase rng (carvePhase rng).2.1 (bossPhase (carvePhase rng).1)).2,
   (carvePhase rng).2.2)

/-- The whole mutable game state.  `hurtCD` embeds the function-local
`static float hurtCD` of `playerHitCheck`: it lives outside the player
object and is never touched by `resetRun`. -/
structure GameState where
  dungeon : Grid
  cursor : Cell
  start : Cell
  runOver : Bool
  allCleared : Bool
  player : Player
  hurtCD : ℚ

/-- `resetRun()`: regenerate the dungeon, move the cursor to spawn,
recreate the player at the room centre, clear the run flags.  The static
`hurtCD` is untouched. -/
def resetRun (rng : RNG) (s : GameState) : GameState :=
  { dungeon := (carveDungeon rng).1
    cursor := spawnCell
    start := spawnCell
    runOver := false
    allCleared := false
    player := { (default : Player) with p := ⟨ROOM_X + ROOM_W / 2, ROOM_Y + ROOM_H / 2⟩ }
    hurtCD := s.hurtCD }

/-- Per-tick key states consumed by the simulation (§6 of the design). -/
structure Input where
  moveUp : Bool := false
  moveDown : Bool := false
  moveLeft : Bool := false
  moveRight : Bool := false
  shootUp : Bool := false
  shootDown : Bool := false
  shootLeft : Bool := false
  shootRight : Bool := false

/-- Clamp a centre into the inset rectangle `room bounds + 20 + int(r)`
(the wall clamp shared by player and enemies; `int(r)` truncates, and all
radii are positive, so it is the floor). -/
def clampToRoom (p : Vec) (r : ℚ) : Vec :=
  ⟨clampQ p.x (ROOM_X + 20 + (Rat.floor r : ℚ)) (ROOM_X + ROOM_W - 20 - (Rat.floor r : ℚ)),
   clampQ p.y (ROOM_Y + 20 + (Rat.floor r : ℚ)) (ROOM_Y + ROOM_H - 20 - (Rat.floor r : ℚ))⟩

/-- `playerUpdateMove`: WASD resolution, normalisation, integration,
wall clamp. -/
def playerUpdateMove (i : Input) (pl : Player) : Player :=
  let mv : Vec :=
    ⟨(if i.moveLeft then (-1 : ℚ) else 0) + (if i.moveRight then 1 else 0),
     (if i.moveUp then (-1 : ℚ) else 0) + (if i.moveDown then 1 else 0)⟩
  let mv := if mv.x ≠ 0 ∨ mv.y ≠ 0 then norm mv else mv
  let p1 := pl.p.add (mv.smul (pl.speed * dt))
  { pl with p := clampToRoom p1 pl.r }

/-- `playerShoot`: gated by the shot cooldown; appends a bullet and arms
the 0.12 s fire-rate cooldown. -/
def playerShoot (dir : Vec) (pl : Player) : Player :=
  if pl.shotCooldown > 0 then pl
  else
    { pl with
      shots := pl.shots ++
        [{ p := pl.p.add (dir.smul (pl.r + 6)), v := dir.smul 360, r := 5,
           ttl := 9 / 10 }]
      shotCooldown := 12 / 100 }

/-- `playerShootInput`: arrow-key resolution; shoots along the normalised
aim when any arrow is down. -/
def playerShootInput (i : Input) (pl : Player) : Player :=
  let d : Vec :=
    ⟨(if i.shootLeft then (-1 : ℚ) else 0) + (if i.shootRight then 1 else 0),
     (if i.shootUp then (-1 : ℚ) else 0) + (if i.shootDown then 1 else 0)⟩
  if d.x ≠ 0 ∨ d.y ≠ 0 then playerShoot (norm d) pl else pl

/-- The input block of the fixed update loop: movement, shooting, and the
shot-cooldown decrement. -/
def phaseInput (i : Input) (s : GameState) : GameState :=
  let pl1 := playerUpdateMove i s.player
  let pl2 := playerShootInput i pl1
  let pl3 :=
    if pl2.shotCooldown > 0 then { pl2 with shotCooldown := pl2.shotCooldown - dt }
    else pl2
  { s with player := pl3 }

/-- Move one enemy (`updateEnemies` loop body): chasers pursue, patrollers
bounce along their axis with an occasional pull toward the player; dead
enemies are skipped; everyone is clamped to the walls. -/
def updateEnemy (pp : Vec) (e : Enemy) : Enemy :=
  if e.dead then e
  else
    let toP := pp.sub e.p
    let d := len toP
    if e.kind = 0 then
      { e with p := clampToRoom (e.p.add ((norm toP).smul (e.speed * dt))) e.r }
    else
      let p1 := e.p.add (e.patrolDir.smul (e.speed * (3 / 4) * dt))
      let pdx :=
        if p1.x < ROOM_X + 30 ∨ p1.x > ROOM_X + ROOM_W - 30 then -e.patrolDir.x
        else e.patrolDir.x
      let pdy :=
        if p1.y < ROOM_Y + 30 ∨ p1.y > ROOM_Y + ROOM_H - 30 then -e.patrolDir.y
        else e.patrolDir.y
      let p2 := if d < 180 then p1.add ((norm toP).smul (e.speed * (2 / 5) * dt)) else p1
      { e with p := clampToRoom p2 e.r, patrolDir := ⟨pdx, pdy⟩ }

/-- `updateEnemies(Room&, dt)`: move everyone, cull the dead
(`std::remove_if`), and if the survivor list is empty mark the room
cleared. -/
def updateEnemiesRoom (pp : Vec) (r : Room) : Room :=
  let es := (r.enemies.map (updateEnemy pp)).filter fun e => !e.dead
  if es.isEmpty then { r with enemies := es, cleared := true }
  else { r with enemies := es }

/-- The enemy phase of the tick, applied to the current room. -/
def phaseEnemies (s : GameState) : GameState :=
  { s with dungeon := updateRoom s.dungeon s.cursor (updateEnemiesRoom s.player.p) }

/-- One bullet against the enemy list in order: the first live overlapping
enemy absorbs the hit (hp − 1, bullet dead, enemy dead at hp ≤ 0) and the
scan stops (`break`). -/
def bulletHit : List Enemy → Bullet → List Enemy × Bullet
  | [], b => ([], b)
  | e :: es, b =>
    if e.dead then
      (e :: (bulletHit es b).1, (bulletHit es b).2)
    else
      if circlesOverlap b.p b.r e.p e.r then
        ({ e with hp := e.hp - 1, dead := decide (e.hp - 1 ≤ 0) } :: es,
         { b with dead := true })
      else
        (e :: (bulletHit es b).1, (bulletHit es b).2)

/-- Move one live bullet: integrate, expire on ttl, kill on leaving the
inner room bounds. -/
def moveBullet (b : Bullet) : Bullet :=
  let p1 := b.p.add (b.v.smul dt)
  let ttl1 := b.ttl - dt
  let dead1 := b.dead || decide (ttl1 ≤ 0) ||
    decide (p1.x < ROOM_X + 20 ∨ p1.x > ROOM_X + ROOM_W - 20 ∨
      p1.y < ROOM_Y + 20 ∨ p1.y > ROOM_Y + ROOM_H - 20)
  { b with p := p1, ttl := ttl1, dead := dead1 }

/-- The bullet loop of `updateBullets`: dead bullets are skipped, live ones
move and then scan the (current, possibly already updated) enemy list.
The enemy-hit scan runs even for a bullet that just expired or left the
bounds, exactly as in the source. -/
def updateBulletsLoop : List Bullet → List Enemy → List Bullet × List Enemy
  | [], es => ([], es)
  | b :: bs, es =>
    if b.dead then
      (b :: (updateBulletsLoop bs es).1, (updateBulletsLoop bs es).2)
    else
      ((bulletHit es (moveBullet b)).2 ::
          (updateBulletsLoop bs (bulletHit es (moveBullet b)).1).1,
        (updateBulletsLoop bs (bulletHit es (moveBullet b)).1).2)

/-- `updateBullets(Room&, dt)`: run the loop, then erase dead bullets
(dead enemies are culled only by the next tick's `updateEnemies`). -/
def phaseBullets (s : GameState) : GameState :=
  let bs := (updateBulletsLoop s.player.shots (s.dungeon s.cursor).enemies).1
  let es := (updateBulletsLoop s.player.shots (s.dungeon s.cursor).enemies).2
  { s with
    player := { s.player with shots := bs.filter fun b => !b.dead }
    dungeon := updateRoom s.dungeon s.cursor (fun r => { r with enemies := es }) }

/-- The body of `playerHitCheck`'s enemy loop, threading the player
position, hp, the static `hurtCD` and the run-over flag.  A hit (overlap
with the timer at ≤ 0) costs 1 hp, knocks the player 20 px away from that
enemy and rearms the timer to 0.9 s; every overlapping live enemy then
ticks the timer down by `dt` (clamped at 0) in the same iteration. -/
def hitLoop (pr : ℚ) : List Enemy → Vec → ℤ → ℚ → Bool → Vec × ℤ × ℚ × Bool
  | [], pp, hp, cd, ro => (pp, hp, cd, ro)
  | e :: es, pp, hp, cd, ro =>
    if e.dead then hitLoop pr es pp hp cd ro
    else
      if circlesOverlap pp pr e.p e.r then
        if cd ≤ 0 then
          let hp1 := hp - 1
          let pp1 := pp.add ((norm (pp.sub e.p)).smul 20)
          let ro1 := ro || decide (hp1 ≤ 0)
          hitLoop pr es pp1 hp1 (max 0 (9 / 10 - dt)) ro1
        else hitLoop pr es pp hp (max 0 (cd - dt)) ro
      else hitLoop pr es pp hp cd ro

/-- `playerHitCheck(Room&, dt)` as a phase of the tick. -/
def phaseHit (s : GameState) : GameState :=
  let r := hitLoop s.player.r (s.dungeon s.cursor).enemies s.player.p
    s.player.hp s.hurtCD s.runOver
  { s with
    player := { s.player with p := r.1, hp := r.2.1 }
    hurtCD := r.2.2.1
    runOver := r.2.2.2 }

/-- `doorRect(Dir)`: the door hit rectangle on each wall. -/
def doorRect (d : Dir) : Rect :=
  if d = Dir.up then
    ⟨ROOM_X + (ROOM_W - DOOR_W) / 2, ROOM_Y - 2,
     ROOM_X + (ROOM_W + DOOR_W) / 2, ROOM_Y + DOOR_H⟩
  else if d = Dir.down then
    ⟨ROOM_X + (ROOM_W - DOOR_W) / 2, ROOM_Y + ROOM_H - DOOR_H,
     ROOM_X + (ROOM_W + DOOR_W) / 2, ROOM_Y + ROOM_H + 2⟩
  else if d = Dir.left then
    ⟨ROOM_X - 2, ROOM_Y + (ROOM_H - DOOR_W) / 2,
     ROOM_X + DOOR_H, ROOM_Y + (ROOM_H + DOOR_W) / 2⟩
  else
    ⟨ROOM_X + ROOM_W - DOOR_H, ROOM_Y + (ROOM_H - DOOR_W) / 2,
     ROOM_X + ROOM_W + 2, ROOM_Y + (ROOM_H + DOOR_W) / 2⟩

/-- The landing position inside the new room for each entry direction (the
fixed inset entry points passed to `tryGo`). -/
def entryPos (d : Dir) : Vec :=
  if d = Dir.up then ⟨ROOM_X + ROOM_W / 2, ROOM_Y + ROOM_H - 60⟩
  else if d = Dir.down then ⟨ROOM_X + ROOM_W / 2, ROOM_Y + 60⟩
  else if d = Dir.left then ⟨ROOM_X + ROOM_W - 60, ROOM_Y + ROOM_H / 2⟩
  else ⟨ROOM_X + 60, ROOM_Y + ROOM_H / 2⟩

/-- The `tryGo` lambda: re-check the door bit, inflate the door rectangle
by 10 and test the player circle; on success move the cursor and teleport
the player. -/
def tryGo (s : GameState) (rm : Room) (d : Dir) (ncell : Cell) : Option GameState :=
  if !rm.doors d then none
  else
    let rc := inflateRect (doorRect d) 10
    if circleRectOverlap s.player.p s.player.r rc then
      some { s with cursor := ncell, player := { s.player with p := entryPos d } }
    else none

/-- One guarded traversal attempt: door bit set, neighbour in bounds and
existing, then `tryGo`. -/
def attemptDoor (s : GameState) (rm : Room) (d : Dir) : Option GameState :=
  match nbrCell s.cursor d with
  | some c' =>
    if rm.doors d && (s.dungeon c').exists' then tryGo s rm d c' else none
  | none => none

/-- `handleDoorsAndTransitions(Room&)`: nothing while the room is
uncleared; otherwise try Up, Down, Left, Right in that order and take the
first success (at most one transition per tick). -/
def phaseDoors (s : GameState) : GameState :=
  let rm := s.dungeon s.cursor
  if !rm.cleared then s
  else
    ((((attemptDoor s rm Dir.up).orElse fun _ => attemptDoor s rm Dir.down).orElse
        fun _ => attemptDoor s rm Dir.left).orElse
      fun _ => attemptDoor s rm Dir.right).getD s

/-- Does any room exist, and is every existing room cleared (the two
accumulators of `checkAllCleared`)? -/
def allRoomsCleared (g : Grid) : Bool :=
  (scanCells.any fun c => (g c).exists') &&
    (scanCells.all fun c => !(g c).exists' || (g c).cleared)

/-- `checkAllCleared()`: recompute `g_allCleared` over the whole grid and
latch `g_runOver` when the floor is done. -/
def phaseCleared (s : GameState) : GameState :=
  let ac := allRoomsCleared s.dungeon
  { s with allCleared := ac, runOver := s.runOver || ac }

/-- The final `if (g_player.hp <= 0) g_runOver = true;` of the tick. -/
def phaseDeath (s : GameState) : GameState :=
  if s.player.hp ≤ 0 then { s with runOver := true } else s

/-- One fixed simulation step (the body of `while (acc >= dt)`), gated by
`if (!g_runOver)`. -/
def stepTick (i : Input) (s : GameState) : GameState :=
  if s.runOver then s
  else
    phaseDeath (phaseCleared (phaseDoors (phaseHit (phaseBullets
      (phaseEnemies (phaseInput i s))))))

/-- The per-frame restart handling (`if (g_runOver && keyDown('R'))
resetRun();`): the restart key only acts once the run is over. -/
def handleRestart (rPressed : Bool) (rng : RNG) (s : GameState) : GameState :=
  if s.runOver && rPressed then resetRun rng s else s

/-- The run states of §4.3.  The source keeps `g_runOver` plus the player
hp: the death banner (and hence `Dead`) is selected by `hp <= 0`. -/
inductive RunState where
  | Active : RunState
  | Cleared : RunState
  | Dead : RunState
deriving DecidableEq, Repr

/-- The run state read off a game state: `Active` while the run is live;
once over, `Dead` on `hp ≤ 0` (priority), else `Cleared`. -/
def stateOf (s : GameState) : RunState :=
  if s.runOver = false then RunState.Active
  else if s.player.hp ≤ 0 then RunState.Dead
  else RunState.Cleared

/-- The door graph on grid cells: two cells are adjacent when one has a
door bit pointing at the other and the other has the reciprocal bit.
Cells without doors (in particular all non-existing rooms) are isolated
vertices. -/
def doorGraph (g : Grid) : SimpleGraph Cell where
  Adj a b := a ≠ b ∧
    ∃ d, nbrCell a d = some b ∧ (g a).doors d = true ∧ (g b).doors (oppDir d) = true
  symm := by
    have hsym : ∀ (a b : Cell) (d : Dir),
        nbrCell a d = some b → nbrCell b (oppDir d) = some a := by decide
    have hopp : ∀ d : Dir, oppDir (oppDir d) = d := by decide
    rintro a b ⟨hne, d, hnb, hab, hba⟩
    exact ⟨Ne.symm hne, oppDir d, hsym a b d hnb, hba, by rw [hopp]; exact hab⟩
  loopless := by rintro a ⟨hne, _⟩; exact hne rfl

instance doorGraphAdjDecidable (g : Grid) : DecidableRel (doorGraph g).Adj := by
  intro a b
  unfold doorGraph
  infer_instance

/-- Reachability along door edges. -/
def Reach (g : Grid) (a b : Cell) : Prop :=
  Relation.ReflTransGen (doorGraph g).Adj a b

/-- The set of existing rooms. -/
def existsSet (g : Grid) : Set Cell := { c | (g c).exists' = true }

/-- The existing-room graph: the door graph induced on the existing
rooms. -/
def existGraph (g : Grid) : SimpleGraph (existsSet g) :=
  (doorGraph g).induce (existsSet g)

/-- The number of existing rooms. -/
def roomCount (g : Grid) : ℕ :=
  (Finset.univ.filter fun c => (g c).exists' = true).card

/-- The invariant carried through the carve loop: the spawn room exists,
every set door bit points (reciprocally) at an existing in-bounds
neighbour, every existing room is door-reachable from spawn, the door
graph is acyclic, and no room has yet been given a boss flag, a cleared
flag or enemies. -/
structure CarveInv (g : Grid) : Prop where
  spawnEx : (g spawnCell).exists' = true
  doorsOk : ∀ c d, (g c).doors d = true →
    ∃ c', nbrCell c d = some c' ∧ (g c).exists' = true ∧ (g c').exists' = true ∧
      (g c').doors (oppDir d) = true
  reach : ∀ c, (g c).exists' = true → Reach g spawnCell c
  acyclic : (doorGraph g).IsAcyclic
  fresh : ∀ c, (g c).boss = false ∧ (g c).cleared = false ∧ (g c).enemies = []

/-- The number of live enemies of a list that overlap a circle of radius
`pr` centred at `pp` (the contact predicate of `playerHitCheck`). -/
def liveOverlapCount (pr : ℚ) (pp : Vec) (es : List Enemy) : ℕ :=
  (es.filter fun e => !e.dead && decide (circlesOverlap pp pr e.p e.r)).length

/-- The first live enemy of a list overlapping the player circle: the one
whose contact check fires first in `playerHitCheck`'s loop order. -/
def firstLiveOverlap (pr : ℚ) (pp : Vec) : List Enemy → Option Enemy
  | [] => none
  | e :: es =>
    if !e.dead && decide (circlesOverlap pp pr e.p e.r) then some e
    else firstLiveOverlap pr pp es

/-- The all-zero random streams (one concrete outcome, used by witnesses). -/
def rng0 : RNG := ⟨fun _ => 0, fun _ => 0⟩

/-- Row-major scan order on cells: the source's boss scan visits `y` outer,
`x` inner. -/
def rowMajorLT (a b : Cell) : Prop :=
  (a.2 : ℕ) < (b.2 : ℕ) ∨ (a.2 = b.2 ∧ (a.1 : ℕ) < (b.1 : ℕ))

instance : DecidableRel rowMajorLT := by
  intro a b
  unfold rowMajorLT
  infer_instance

/-- The invariant of the boss-selection scan after processing the cells of
`A`: either nothing existing has been seen and the accumulator still holds
`(-1, spawn)`, or the accumulator holds the first existing cell of maximal
squared distance seen so far. -/
def bossInv (g : Grid) (st : ℤ × Cell) (A : List Cell) : Prop :=
  (st = (-1, spawnCell) ∧ ∀ c ∈ A, (g c).exists' = false) ∨
    ((g st.2).exists' = true ∧ st.2 ∈ A ∧ st.1 = distSq st.2 ∧
      ∀ c ∈ A, (g c).exists' = true →
        distSq c ≤ st.1 ∧ (rowMajorLT c st.2 → distSq c < st.1))

/-- The carved-cell set of the spec's 5×5 scenario: spawn `(2,2)` plus
`(3,2)`, `(3,1)`, `(2,1)`, `(2,0)`, `(1,1)`. -/
def scenarioCells : List Cell :=
  [(⟨2, by decide⟩, ⟨2, by decide⟩), (⟨3, by decide⟩, ⟨2, by decide⟩),
   (⟨3, by decide⟩, ⟨1, by decide⟩), (⟨2, by decide⟩, ⟨1, by decide⟩),
   (⟨2, by decide⟩, ⟨0, by decide⟩), (⟨1, by decide⟩, ⟨1, by decide⟩)]

/-- The scenario grid: exactly the scenario cells exist (door bits are
irrelevant to boss selection). -/
def gScenario : Grid := fun c =>
  if c ∈ scenarioCells then { exists' := true } else {}

/-- The state of a tick after input, enemy AI and bullets, and before the
player contact check (the phases preceding `playerHitCheck` in the fixed
update loop). -/
def midState (i : Input) (s : GameState) : GameState :=
  phaseBullets (phaseEnemies (phaseInput i s))

/-- The `playerHitCheck` pass of a tick, expressed on the mid-tick
state. -/
def hitResult (i : Input) (s : GameState) : Vec × ℤ × ℚ × Bool :=
  hitLoop (midState i s).player.r
    ((midState i s).dungeon (midState i s).cursor).enemies
    (midState i s).player.p (midState i s).player.hp
    (midState i s).hurtCD (midState i s).runOver

/-- The all-keys-up input. -/
def input0 : Input := {}

/-- A room with one live chaser one bullet-hit from death, a left door,
and `cleared = false`. -/
def cxRoomA : Room :=
  { exists' := true, cleared := false, boss := false,
    doors := fun d => decide (d = Dir.left),
    enemies := [{ p := ⟨652, 270⟩, hp := 1 }] }

/-- The left neighbour room: existing, cleared, right door back. -/
def cxRoomB : Room :=
  { exists' := true, cleared := true, boss := false,
    doors := fun d => decide (d = Dir.right), enemies := [] }

/-- A two-room grid: `cxRoomA` at the centre `(2,2)`, `cxRoomB` at
`(1,2)`. -/
def cxGrid : Grid := fun c =>
  if c = ((1 : Fin 5), (2 : Fin 5)) then cxRoomB
  else if c = ((2 : Fin 5), (2 : Fin 5)) then cxRoomA
  else {}

/-- The bullet about to kill the centre room's last enemy. -/
def cxBullet : Bullet := { p := ⟨656, 270⟩, v := ⟨-360, 0⟩, r := 5, ttl := 1 / 2 }

/-- A mid-run state: the player stands on the (locked) left door of the
uncleared centre room while a bullet is about to kill its last enemy this
tick. -/
def cxState : GameState :=
  { dungeon := cxGrid
    cursor := ((2 : Fin 5), (2 : Fin 5))
    start := spawnCell
    runOver := false
    allCleared := false
    player := { p := ⟨152, 270⟩, shots := [cxBullet] }
    hurtCD := 0 }

/-- A room holding two live chasers flanking the room centre. -/
def c7Room : Room :=
  { exists' := true, cleared := false, boss := false,
    doors := fun _ => false,
    enemies := [{ p := ⟨490, 270⟩ }, { p := ⟨470, 270⟩ }] }

/-- A one-room grid holding `c7Room` at the centre. -/
def c7Grid : Grid := fun c =>
  if c = ((2 : Fin 5), (2 : Fin 5)) then c7Room else {}

/-- Two live enemies overlap the player while the invulnerability timer
holds exactly one tick (`dt`): the first overlap ticks it to zero and the
second then deals damage in the same tick. -/
def c7State : GameState :=
  { dungeon := c7Grid
    cursor := ((2 : Fin 5), (2 : Fin 5))
    start := spawnCell
    runOver := false
    allCleared := false
    player := { p := ⟨480, 270⟩ }
    hurtCD := dt }

/-- The same overlap scenario entered with the timer at zero. -/
def c7StateHit : GameState :=
  { dungeon := c7Grid
    cursor := ((2 : Fin 5), (2 : Fin 5))
    start := spawnCell
    runOver := false
    allCleared := false
    player := { p := ⟨480, 270⟩ }
    hurtCD := 0 }

/-- The same overlap scenario entered with a long timer. -/
def c10State : GameState :=
  { dungeon := c7Grid
    cursor := ((2 : Fin 5), (2 : Fin 5))
    start := spawnCell
    runOver := false
    allCleared := false
    player := { p := ⟨480, 270⟩ }
    hurtCD := 1 }

/-- A live mid-run state with reduced hp (the restart key must be ignored
here). -/
def c2State : GameState :=
  { dungeon := cxGrid
    cursor := ((2 : Fin 5), (2 : Fin 5))
    start := spawnCell
    runOver := false
    allCleared := false
    player := { p := ⟨480, 270⟩, hp := 3 }
    hurtCD := 0 }

/-- A finished-run state (the restart key acts here). -/
def overState : GameState :=
  { dungeon := cxGrid
    cursor := ((2 : Fin 5), (2 : Fin 5))
    start := spawnCell
    runOver := true
    allCleared := false
    player := { p := ⟨480, 270⟩, hp := 0 }
    hurtCD := 0 }

/-! ### Theorems -/

theorem oppDir_oppDir : ∀ d : Dir, oppDir (oppDir d) = d := by decide

theorem nbrCell_symm : ∀ (a b : Cell) (d : Dir),
    nbrCell a d = some b → nbrCell b (oppDir d) = some a := by decide

theorem nbrCell_ne : ∀ (a b : Cell) (d : Dir), nbrCell a d = some b → a ≠ b := by
  decide

theorem nbrCell_inj : ∀ (a b c : Cell) (d : Dir),
    nbrCell a d = some c → nbrCell b d = some c → a = b := by
  intro a b c d h1 h2
  exact Option.some.inj ((nbrCell_symm a c d h1).symm.trans (nbrCell_symm b c d h2))

theorem updateRoom_same (g : Grid) (c : Cell) (f : Room → Room) :
    updateRoom g c f c = f (g c) := by simp [updateRoom]

theorem updateRoom_other (g : Grid) (c c' : Cell) (f : Room → Room)
    (h : c' ≠ c) : updateRoom g c f c' = g c' := by simp [updateRoom, h]

theorem carveAt_cur (g : Grid) {cur nbr : Cell} (d : Dir) (hne : cur ≠ nbr) :
    (carveAt g cur nbr d cur).exists' = true ∧
      (carveAt g cur nbr d cur).doors = Function.update (g cur).doors d true ∧
      (carveAt g cur nbr d cur).boss = (g cur).boss ∧
      (carveAt g cur nbr d cur).cleared = (g cur).cleared ∧
      (carveAt g cur nbr d cur).enemies = (g cur).enemies := by
  unfold carveAt
  rw [updateRoom_other _ _ _ _ hne, updateRoom_same,
    updateRoom_other _ _ _ _ hne, updateRoom_same]
  exact ⟨rfl, rfl, rfl, rfl, rfl⟩

theorem carveAt_nbr (g : Grid) {cur nbr : Cell} (d : Dir) (hne : cur ≠ nbr) :
    (carveAt g cur nbr d nbr).exists' = true ∧
      (carveAt g cur nbr d nbr).doors =
        Function.update (g nbr).doors (oppDir d) true ∧
      (carveAt g cur nbr d nbr).boss = (g nbr).boss ∧
      (carveAt g cur nbr d nbr).cleared = (g nbr).cleared ∧
      (carveAt g cur nbr d nbr).enemies = (g nbr).enemies := by
  unfold carveAt
  rw [updateRoom_same, updateRoom_other _ _ _ _ (Ne.symm hne), updateRoom_same,
    updateRoom_other _ _ _ _ (Ne.symm hne)]
  exact ⟨rfl, rfl, rfl, rfl, rfl⟩

theorem carveAt_other (g : Grid) {cur nbr c : Cell} (d : Dir)
    (h1 : c ≠ cur) (h2 : c ≠ nbr) : carveAt g cur nbr d c = g c := by
  unfold carveAt
  rw [updateRoom_other _ _ _ _ h2, updateRoom_other _ _ _ _ h1,
    updateRoom_other _ _ _ _ h2, updateRoom_other _ _ _ _ h1]

theorem carveAt_exists_iff (g : Grid) {cur nbr : Cell} (d : Dir) (c : Cell)
    (hne : cur ≠ nbr) :
    ((carveAt g cur nbr d c).exists' = true) ↔
      ((g c).exists' = true ∨ c = cur ∨ c = nbr) := by
  by_cases h1 : c = cur
  · subst h1; simp [(carveAt_cur g d hne).1]
  · by_cases h2 : c = nbr
    · subst h2; simp [(carveAt_nbr g d hne).1]
    · rw [carveAt_other g d h1 h2]; simp [h1, h2]

theorem carveAt_doors_iff (g : Grid) {cur nbr : Cell} (d : Dir) (c : Cell)
    (d' : Dir) (hne : cur ≠ nbr) :
    ((carveAt g cur nbr d c).doors d' = true) ↔
      ((g c).doors d' = true ∨ (c = cur ∧ d' = d) ∨ (c = nbr ∧ d' = oppDir d)) := by
  by_cases h1 : c = cur
  · subst h1
    rw [(carveAt_cur g d hne).2.1]
    by_cases hd : d' = d <;>
      simp [Function.update_apply, hd, hne, fun h => hne (Eq.symm h)]
  · by_cases h2 : c = nbr
    · subst h2
      rw [(carveAt_nbr g d hne).2.1]
      by_cases hd : d' = oppDir d <;>
        simp [Function.update_apply, hd, h1, Ne.symm hne]
    · rw [carveAt_other g d h1 h2]; simp [h1, h2]

theorem carveAt_fields (g : Grid) (cur nbr c : Cell) (d : Dir) (hne : cur ≠ nbr) :
    (carveAt g cur nbr d c).boss = (g c).boss ∧
      (carveAt g cur nbr d c).cleared = (g c).cleared ∧
      (carveAt g cur nbr d c).enemies = (g c).enemies := by
  by_cases h1 : c = cur
  · subst h1; exact (carveAt_cur g d hne).2.2
  · by_cases h2 : c = nbr
    · subst h2; exact (carveAt_nbr g d hne).2.2
    · rw [carveAt_other g d h1 h2]; exact ⟨rfl, rfl, rfl⟩

theorem walk_exists_last_edge {V : Type} [DecidableEq V] {G : SimpleGraph V} :
    ∀ {a b : V} (p : G.Walk a b), a ≠ b → ∃ y, s(y, b) ∈ p.edges := by
  intro a b p
  induction p with
  | nil => intro h; exact absurd rfl h
  | @cons u x w h q ih =>
    intro _
    by_cases hxw : x = w
    · subst hxw
      exact ⟨u, by simp⟩
    · obtain ⟨y, hy⟩ := ih hxw
      exact ⟨y, by simp [hy]⟩

/-- Adding a single edge from `u` to an isolated vertex `v` preserves
acyclicity: a cycle through `v` would have to use the pendant edge twice,
and a cycle avoiding `v` lives in the old graph. -/
theorem isAcyclic_of_pendant {V : Type} [DecidableEq V] {G H : SimpleGraph V}
    (hG : G.IsAcyclic)
    {u v : V} (huv : u ≠ v) (hiso : ∀ w, ¬ G.Adj v w)
    (hH : ∀ a b, H.Adj a b ↔ G.Adj a b ∨ (a = u ∧ b = v) ∨ (a = v ∧ b = u)) :
    H.IsAcyclic := by
  intro w c hc
  by_cases hv : v ∈ c.support
  · have hc2 : (c.rotate hv).IsCycle := hc.rotate hv
    generalize hrot : c.rotate hv = c2 at hc2
    cases c2 with
    | nil => exact hc2.not_of_nil
    | @cons _ x _ h p =>
      have hx : x = u := by
        rcases (hH v x).mp h with h' | ⟨hvu, _⟩ | ⟨_, hxu⟩
        · exact absurd h' (hiso x)
        · exact absurd hvu huv.symm
        · exact hxu
      subst hx
      rw [SimpleGraph.Walk.cons_isCycle_iff] at hc2
      obtain ⟨y, hy⟩ := walk_exists_last_edge p huv
      have hadj : H.Adj y v := SimpleGraph.Walk.adj_of_mem_edges p hy
      have hyx : y = x := by
        rcases (hH y v).mp hadj with h' | ⟨hyu, _⟩ | ⟨_, hvu⟩
        · exact absurd h'.symm (hiso y)
        · exact hyu
        · exact absurd hvu.symm huv
      subst hyx
      exact hc2.2 (by rwa [Sym2.eq_swap] at hy)
  · have hGedges : ∀ e ∈ c.edges, e ∈ G.edgeSet := by
      intro e he
      induction e using Sym2.ind with
      | _ a b =>
        have hadj : H.Adj a b := SimpleGraph.Walk.adj_of_mem_edges c he
        rcases (hH a b).mp hadj with h' | ⟨_, hbv⟩ | ⟨hav, _⟩
        · exact h'
        · exact absurd (c.snd_mem_support_of_mem_edges (hbv ▸ he)) hv
        · exact absurd (c.fst_mem_support_of_mem_edges (hav ▸ he)) hv
    exact hG (c.transfer G hGedges) (hc.transfer hGedges)

theorem doorGraph_adj (g : Grid) (a b : Cell) :
    (doorGraph g).Adj a b ↔ a ≠ b ∧
      ∃ d, nbrCell a d = some b ∧ (g a).doors d = true ∧
        (g b).doors (oppDir d) = true := Iff.rfl

/-- How one carve step changes the door graph: exactly the pendant edge
between `cur` and the freshly carved `nbr` is added. -/
theorem doorGraph_carveAt_adj (g : Grid) {cur nbr : Cell} {d : Dir}
    (hdoorsOk : ∀ c d', (g c).doors d' = true →
      ∃ c', nbrCell c d' = some c' ∧ (g c).exists' = true ∧
        (g c').exists' = true ∧ (g c').doors (oppDir d') = true)
    (hnb : nbrCell cur d = some nbr) (_hnbr : (g nbr).exists' = false) :
    ∀ a b, (doorGraph (carveAt g cur nbr d)).Adj a b ↔
      (doorGraph g).Adj a b ∨ (a = cur ∧ b = nbr) ∨ (a = nbr ∧ b = cur) := by
  have hne : cur ≠ nbr := nbrCell_ne cur nbr d hnb
  intro a b
  constructor
  · rintro ⟨hab, d', h1, h2, h3⟩
    rcases (carveAt_doors_iff g d a d' hne).mp h2 with hold | ⟨ha, hd⟩ | ⟨ha, hd⟩
    · obtain ⟨c', hc1, hc2, hc3, hc4⟩ := hdoorsOk a d' hold
      have hcb : c' = b := Option.some.inj (hc1.symm.trans h1)
      subst hcb
      exact Or.inl ⟨hab, d', h1, hold, hc4⟩
    · rw [ha, hd] at h1
      exact Or.inr (Or.inl ⟨ha, Option.some.inj (h1.symm.trans hnb)⟩)
    · rw [ha, hd] at h1
      exact Or.inr (Or.inr ⟨ha,
        Option.some.inj (h1.symm.trans (nbrCell_symm cur nbr d hnb))⟩)
  · rintro (⟨hab, d', h1, h2, h3⟩ | ⟨ha, hb⟩ | ⟨ha, hb⟩)
    · exact ⟨hab, d', h1, (carveAt_doors_iff g d a d' hne).mpr (Or.inl h2),
        (carveAt_doors_iff g d b (oppDir d') hne).mpr (Or.inl h3)⟩
    · rw [ha, hb]
      exact ⟨hne, d, hnb,
        (carveAt_doors_iff g d cur d hne).mpr (Or.inr (Or.inl ⟨rfl, rfl⟩)),
        (carveAt_doors_iff g d nbr (oppDir d) hne).mpr
          (Or.inr (Or.inr ⟨rfl, rfl⟩))⟩
    · rw [ha, hb]
      refine ⟨Ne.symm hne, oppDir d, nbrCell_symm cur nbr d hnb,
        (carveAt_doors_iff g d nbr (oppDir d) hne).mpr
          (Or.inr (Or.inr ⟨rfl, rfl⟩)), ?_⟩
      rw [oppDir_oppDir]
      exact (carveAt_doors_iff g d cur d hne).mpr (Or.inr (Or.inl ⟨rfl, rfl⟩))

theorem reach_mono_carveAt (g : Grid) {cur nbr : Cell} {d : Dir}
    (hdoorsOk : ∀ c d', (g c).doors d' = true →
      ∃ c', nbrCell c d' = some c' ∧ (g c).exists' = true ∧
        (g c').exists' = true ∧ (g c').doors (oppDir d') = true)
    (hnb : nbrCell cur d = some nbr) (hnbr : (g nbr).exists' = false)
    {a b : Cell} (h : Reach g a b) : Reach (carveAt g cur nbr d) a b :=
  Relation.ReflTransGen.mono
    (fun _ _ hadj =>
      (doorGraph_carveAt_adj g hdoorsOk hnb hnbr _ _).mpr (Or.inl hadj)) h

theorem roomCount_carveAt (g : Grid) {cur nbr : Cell} (d : Dir)
    (hcur : (g cur).exists' = true) (hnbr : (g nbr).exists' = false)
    (hne : cur ≠ nbr) :
    roomCount (carveAt g cur nbr d) = roomCount g + 1 := by
  unfold roomCount
  have hset : (Finset.univ.filter fun c => (carveAt g cur nbr d c).exists' = true) =
      insert nbr (Finset.univ.filter fun c => (g c).exists' = true) := by
    ext c
    simp only [Finset.mem_filter, Finset.mem_insert, Finset.mem_univ, true_and]
    rw [carveAt_exists_iff g d c hne]
    constructor
    · rintro (h | rfl | rfl)
      · exact Or.inr h
      · exact Or.inr hcur
      · exact Or.inl rfl
    · rintro (rfl | h)
      · exact Or.inr (Or.inr rfl)
      · exact Or.inl h
  rw [hset, Finset.card_insert_of_not_mem]
  simp [hnbr]

/-- One successful carve step preserves the loop invariant and raises the
room count by exactly one. -/
theorem carveStep_inv (g : Grid) (cur nbr : Cell) (d : Dir)
    (hInv : CarveInv g) (hcur : (g cur).exists' = true)
    (hnb : nbrCell cur d = some nbr) (hnbr : (g nbr).exists' = false) :
    CarveInv (carveAt g cur nbr d) ∧
      roomCount (carveAt g cur nbr d) = roomCount g + 1 ∧
      (∀ c, (g c).exists' = true → (carveAt g cur nbr d c).exists' = true) := by
  have hne : cur ≠ nbr := nbrCell_ne cur nbr d hnb
  have hmono : ∀ c, (g c).exists' = true → (carveAt g cur nbr d c).exists' = true :=
    fun c h => (carveAt_exists_iff g d c hne).mpr (Or.inl h)
  have hAdjIff := doorGraph_carveAt_adj g hInv.doorsOk hnb hnbr
  refine ⟨⟨hmono _ hInv.spawnEx, ?_, ?_, ?_, ?_⟩,
    roomCount_carveAt g d hcur hnbr hne, hmono⟩
  · -- doorsOk
    intro c d' hd'
    rcases (carveAt_doors_iff g d c d' hne).mp hd' with hold | ⟨hc, hd⟩ | ⟨hc, hd⟩
    · obtain ⟨c', h1, h2, h3, h4⟩ := hInv.doorsOk c d' hold
      exact ⟨c', h1, hmono _ h2, hmono _ h3,
        (carveAt_doors_iff g d c' (oppDir d') hne).mpr (Or.inl h4)⟩
    · rw [hc, hd]
      exact ⟨nbr, hnb, hmono _ hcur, (carveAt_nbr g d hne).1,
        (carveAt_doors_iff g d nbr (oppDir d) hne).mpr (Or.inr (Or.inr ⟨rfl, rfl⟩))⟩
    · rw [hc, hd]
      refine ⟨cur, nbrCell_symm cur nbr d hnb, (carveAt_nbr g d hne).1,
        hmono _ hcur, ?_⟩
      rw [oppDir_oppDir]
      exact (carveAt_doors_iff g d cur d hne).mpr (Or.inr (Or.inl ⟨rfl, rfl⟩))
  · -- reach
    intro c hc
    rcases (carveAt_exists_iff g d c hne).mp hc with hold | hccur | hcnbr
    · exact reach_mono_carveAt g hInv.doorsOk hnb hnbr (hInv.reach c hold)
    · rw [hccur]
      exact reach_mono_carveAt g hInv.doorsOk hnb hnbr (hInv.reach cur hcur)
    · rw [hcnbr]
      refine Relation.ReflTransGen.tail
        (reach_mono_carveAt g hInv.doorsOk hnb hnbr (hInv.reach cur hcur)) ?_
      exact (hAdjIff cur nbr).mpr (Or.inr (Or.inl ⟨rfl, rfl⟩))
  · -- acyclic
    refine isAcyclic_of_pendant hInv.acyclic hne ?_ hAdjIff
    rintro x ⟨_, d', h1, h2, _⟩
    obtain ⟨c', _, hex, _, _⟩ := hInv.doorsOk nbr d' h2
    rw [hnbr] at hex
    exact Bool.false_ne_true hex
  · -- fresh
    intro c
    obtain ⟨h1, h2, h3⟩ := carveAt_fields g cur nbr c d hne
    rw [h1, h2, h3]
    exact hInv.fresh c

theorem firstFree_sound (g : Grid) (c : Cell) :
    ∀ (l : List Dir) (d : Dir) (c' : Cell), firstFree g c l = some (d, c') →
      nbrCell c d = some c' ∧ (g c').exists' = false := by
  intro l
  induction l with
  | nil => intro d c' h; exact absurd h (by simp [firstFree])
  | cons d0 ds ih =>
    intro d c' h
    rw [firstFree] at h
    cases hnb : nbrCell c d0 with
    | none => rw [hnb] at h; exact ih d c' h
    | some c0 =>
      rw [hnb] at h
      have h' : (if (g c0).exists' = true then firstFree g c ds
          else some (d0, c0)) = some (d, c') := h
      by_cases hex : (g c0).exists' = true
      · rw [if_pos hex] at h'; exact ih d c' h'
      · rw [if_neg hex] at h'
        have hpair : d0 = d ∧ c0 = c' := by
          have := Option.some.inj h'
          exact ⟨congrArg Prod.fst this, congrArg Prod.snd this⟩
        obtain ⟨rfl, rfl⟩ := hpair
        exact ⟨hnb, Bool.eq_false_iff.mpr fun hx => hex hx⟩

/-- The carve loop preserves the invariant; the room count never
decreases and never exceeds the target. -/
theorem carveLoop_inv (rng : RNG) :
    ∀ (fuel k : ℕ) (g : Grid) (stack : List Cell) (made target : ℕ),
      CarveInv g → (∀ c ∈ stack, (g c).exists' = true) →
      made = roomCount g → made ≤ target →
      CarveInv (carveLoop rng fuel k g stack made target).1 ∧
        roomCount g ≤ roomCount (carveLoop rng fuel k g stack made target).1 ∧
        roomCount (carveLoop rng fuel k g stack made target).1 ≤ target := by
  intro fuel
  induction fuel with
  | zero =>
    intro k g stack made target hInv hstack hmade hle
    rw [carveLoop]
    exact ⟨hInv, le_refl _, hmade ▸ hle⟩
  | succ fuel ih =>
    intro k g stack made target hInv hstack hmade hle
    cases stack with
    | nil =>
      rw [carveLoop]
      exact ⟨hInv, le_refl _, hmade ▸ hle⟩
    | cons cur rest =>
      by_cases hlt : made < target
      · cases hff : firstFree g cur (shuffleDirs rng k).1 with
        | none =>
          have hres : carveLoop rng (fuel + 1) k g (cur :: rest) made target =
              carveLoop rng fuel (shuffleDirs rng k).2 g rest made target := by
            rw [carveLoop, if_pos hlt, hff]
          rw [hres]
          exact ih _ g rest made target hInv
            (fun c hc => hstack c (List.mem_cons_of_mem cur hc)) hmade hle
        | some p =>
          obtain ⟨d, nbr⟩ := p
          obtain ⟨hnb, hnbr⟩ := firstFree_sound g cur _ d nbr hff
          have hcur : (g cur).exists' = true := hstack cur (List.mem_cons_self cur rest)
          obtain ⟨hInv2, hcount, hmono⟩ := carveStep_inv g cur nbr d hInv hcur hnb hnbr
          have hres : carveLoop rng (fuel + 1) k g (cur :: rest) made target =
              carveLoop rng fuel (shuffleDirs rng k).2 (carveAt g cur nbr d)
                (nbr :: cur :: rest) (made + 1) target := by
            rw [carveLoop, if_pos hlt, hff]
          rw [hres]
          have hstack2 : ∀ c ∈ nbr :: cur :: rest,
              (carveAt g cur nbr d c).exists' = true := by
            intro c hc
            rcases List.mem_cons.mp hc with hceq | hc2
            · rw [hceq]
              exact (carveAt_nbr g d (nbrCell_ne cur nbr d hnb)).1
            · exact hmono c (hstack c hc2)
          obtain ⟨hA, hB, hC⟩ := ih _ (carveAt g cur nbr d) (nbr :: cur :: rest)
            (made + 1) target hInv2 hstack2 (by rw [hcount, hmade]) hlt
          exact ⟨hA, by omega, hC⟩
      · rw [carveLoop, if_neg hlt]
        exact ⟨hInv, le_refl _, hmade ▸ hle⟩

theorem randNat_le (rng : RNG) (k a b : ℕ) (h : a ≤ b) :
    a ≤ randNat rng k a b ∧ randNat rng k a b ≤ b := by
  unfold randNat
  have := Nat.mod_lt (rng.ints k) (show 0 < b + 1 - a by omega)
  omega

theorem shuffleDirs_length (rng : RNG) (k : ℕ) :
    ((shuffleDirs rng k).1).length = 4 := by
  simp [shuffleDirs, listSwap]

/-- The grid at the start of the carve: only the spawn cell exists and no
room has any door, flag or enemy. -/
theorem initCarve_facts :
    (∀ c, ((updateRoom initGrid spawnCell fun r =>
        { r with exists' := true }) c).exists' = true ↔ c = spawnCell) ∧
      (∀ c d, ((updateRoom initGrid spawnCell fun r =>
        { r with exists' := true }) c).doors d = false) ∧
      (∀ c, ((updateRoom initGrid spawnCell fun r =>
        { r with exists' := true }) c).boss = false ∧
        ((updateRoom initGrid spawnCell fun r =>
        { r with exists' := true }) c).cleared = false ∧
        ((updateRoom initGrid spawnCell fun r =>
        { r with exists' := true }) c).enemies = []) := by
  refine ⟨fun c => ?_, fun c d => ?_, fun c => ?_⟩ <;>
    [skip; skip; skip] <;> by_cases hc : c = spawnCell
  · rw [hc, updateRoom_same]; simp
  · rw [updateRoom_other _ _ _ _ hc]; simp [initGrid, hc]
  · rw [hc, updateRoom_same]; rfl
  · rw [updateRoom_other _ _ _ _ hc]; rfl
  · rw [hc, updateRoom_same]; exact ⟨rfl, rfl, rfl⟩
  · rw [updateRoom_other _ _ _ _ hc]; exact ⟨rfl, rfl, rfl⟩

theorem initCarve_inv :
    CarveInv (updateRoom initGrid spawnCell fun r => { r with exists' := true }) := by
  obtain ⟨hex, hdoors, hfield⟩ := initCarve_facts
  refine ⟨(hex spawnCell).mpr rfl, ?_, ?_, ?_, hfield⟩
  · intro c d hd
    rw [hdoors c d] at hd
    exact absurd hd (by simp)
  · intro c hc
    rw [hex c] at hc
    rw [hc]
    exact Relation.ReflTransGen.refl
  · intro w c hc
    cases c with
    | nil => exact hc.not_of_nil
    | cons h p =>
      obtain ⟨_, d, _, hdoor, _⟩ := h
      rw [hdoors _ d] at hdoor
      exact absurd hdoor (by simp)

theorem initCarve_count :
    roomCount (updateRoom initGrid spawnCell fun r => { r with exists' := true }) = 1 := by
  unfold roomCount
  have : (Finset.univ.filter fun c => ((updateRoom initGrid spawnCell fun r =>
      { r with exists' := true }) c).exists' = true) = {spawnCell} := by
    ext c
    simp [initCarve_facts.1 c]
  rw [this, Finset.card_singleton]

theorem spawn_nbr : ∀ d : Dir, ∃ c', nbrCell spawnCell d = some c' ∧ c' ≠ spawnCell := by
  decide

/-- The generated grid (before boss selection and population) satisfies
the carve invariant, and its room count lies between 2 and the drawn
target (the first loop iteration always carves, because the spawn cell is
the grid centre). -/
theorem carvePhase_facts (rng : RNG) :
    CarveInv (carvePhase rng).1 ∧ 2 ≤ roomCount (carvePhase rng).1 ∧
      roomCount (carvePhase rng).1 ≤ (carvePhase rng).2.2 ∧
      6 ≤ (carvePhase rng).2.2 := by
  have htarget := randNat_le rng 0 6 9 (by omega)
  have hlt : 1 < randNat rng 0 6 9 := by omega
  obtain ⟨d0, ds, hdirs⟩ : ∃ d0 ds, (shuffleDirs rng 1).1 = d0 :: ds := by
    cases hd : (shuffleDirs rng 1).1 with
    | nil => exact absurd (hd ▸ shuffleDirs_length rng 1) (by simp)
    | cons d0 ds => exact ⟨d0, ds, rfl⟩
  obtain ⟨c0, hc0, hc0ne⟩ := spawn_nbr d0
  obtain ⟨hex0, _, _⟩ := initCarve_facts
  have hc0notex : ((updateRoom initGrid spawnCell fun r =>
      { r with exists' := true }) c0).exists' = false :=
    Bool.eq_false_iff.mpr fun h => hc0ne ((hex0 c0).mp h)
  have hff : firstFree (updateRoom initGrid spawnCell fun r =>
      { r with exists' := true }) spawnCell ((shuffleDirs rng 1).1) =
      some (d0, c0) := by
    rw [hdirs, firstFree, hc0]
    have hne : ¬ (((updateRoom initGrid spawnCell fun r =>
        { r with exists' := true }) c0).exists' = true) := by
      rw [hc0notex]; simp
    exact if_neg hne
  have hstep := carveStep_inv _ spawnCell c0 d0 initCarve_inv
    ((hex0 spawnCell).mpr rfl) hc0 hc0notex
  have hunfold : carveLoop rng 100 1 (updateRoom initGrid spawnCell fun r =>
      { r with exists' := true }) [spawnCell] 1 (randNat rng 0 6 9) =
      carveLoop rng 99 (shuffleDirs rng 1).2
        (carveAt (updateRoom initGrid spawnCell fun r =>
          { r with exists' := true }) spawnCell c0 d0)
        (c0 :: spawnCell :: []) 2 (randNat rng 0 6 9) := by
    rw [carveLoop, if_pos hlt, hff]
  obtain ⟨hInv2, hcount2, hmono2⟩ := hstep
  have hstack2 : ∀ c ∈ c0 :: spawnCell :: ([] : List Cell),
      ((carveAt (updateRoom initGrid spawnCell fun r =>
        { r with exists' := true }) spawnCell c0 d0) c).exists' = true := by
    intro c hc
    rcases List.mem_cons.mp hc with hceq | hc2
    · rw [hceq]
      exact (carveAt_nbr _ d0 (nbrCell_ne _ _ d0 hc0)).1
    · rcases List.mem_cons.mp hc2 with hceq | hc3
      · rw [hceq]
        exact hmono2 _ ((hex0 spawnCell).mpr rfl)
      · exact absurd hc3 (List.not_mem_nil c)
  obtain ⟨hA, hB, hC⟩ := carveLoop_inv rng 99 (shuffleDirs rng 1).2 _ _ 2
    (randNat rng 0 6 9) hInv2 hstack2
    (by rw [hcount2, initCarve_count]) (by omega)
  have hphase1 : (carvePhase rng).1 =
      (carveLoop rng 100 1 (updateRoom initGrid spawnCell fun r =>
        { r with exists' := true }) [spawnCell] 1 (randNat rng 0 6 9)).1 := rfl
  have hphase2 : (carvePhase rng).2.2 = randNat rng 0 6 9 := rfl
  rw [hphase1, hphase2, hunfold]
  refine ⟨hA, ?_, hC, by omega⟩
  rw [hcount2, initCarve_count] at hB
  exact hB

theorem bossPhase_pres (g : Grid) (c : Cell) :
    ((bossPhase g) c).exists' = (g c).exists' ∧
      ((bossPhase g) c).doors = (g c).doors ∧
      ((bossPhase g) c).cleared = (g c).cleared ∧
      ((bossPhase g) c).enemies = (g c).enemies := by
  unfold bossPhase
  by_cases hc : c = bossCell g
  · rw [hc, updateRoom_same]; exact ⟨rfl, rfl, rfl, rfl⟩
  · rw [updateRoom_other _ _ _ _ hc]; exact ⟨rfl, rfl, rfl, rfl⟩

theorem spawnEnemies_pres (rng : RNG) (k : ℕ) (r : Room) :
    ((spawnEnemies rng k r).1).exists' = r.exists' ∧
      ((spawnEnemies rng k r).1).doors = r.doors ∧
      ((spawnEnemies rng k r).1).boss = r.boss :=
  ⟨rfl, rfl, rfl⟩

theorem popLoop_pres (rng : RNG) :
    ∀ (l : List Cell) (g : Grid) (k : ℕ) (c : Cell),
      ((popLoop rng l g k).1 c).exists' = (g c).exists' ∧
        ((popLoop rng l g k).1 c).doors = (g c).doors ∧
        ((popLoop rng l g k).1 c).boss = (g c).boss := by
  intro l
  induction l with
  | nil => intro g k c; exact ⟨rfl, rfl, rfl⟩
  | cons c0 cs ih =>
    intro g k c
    rw [popLoop]
    by_cases hex : (g c0).exists' = true
    · rw [if_pos hex]
      by_cases hsp : c0 = spawnCell
      · rw [if_pos hsp]
        obtain ⟨h1, h2, h3⟩ := ih (updateRoom g c0 fun r => { r with cleared := true }) k c
        rw [h1, h2, h3]
        by_cases hc : c = c0
        · rw [hc, updateRoom_same]; exact ⟨rfl, rfl, rfl⟩
        · rw [updateRoom_other _ _ _ _ hc]; exact ⟨rfl, rfl, rfl⟩
      · rw [if_neg hsp]
        obtain ⟨h1, h2, h3⟩ := ih
          (updateRoom g c0 fun _ => (spawnEnemies rng k (g c0)).1)
          ((spawnEnemies rng k (g c0)).2) c
        rw [h1, h2, h3]
        by_cases hc : c = c0
        · rw [hc, updateRoom_same]
          exact (spawnEnemies_pres rng k (g c0))
        · rw [updateRoom_other _ _ _ _ hc]; exact ⟨rfl, rfl, rfl⟩
    · rw [if_neg hex]
      exact ih g k c

/-- Boss selection and population do not change which rooms exist or how
they are connected. -/
theorem carveDungeon_pres (rng : RNG) (c : Cell) :
    ((carveDungeon rng).1 c).exists' = ((carvePhase rng).1 c).exists' ∧
      ((carveDungeon rng).1 c).doors = ((carvePhase rng).1 c).doors := by
  obtain ⟨h1, h2, _⟩ := popLoop_pres rng scanCells
    (bossPhase (carvePhase rng).1) (carvePhase rng).2.1 c
  obtain ⟨h4, h5, _, _⟩ := bossPhase_pres (carvePhase rng).1 c
  have e1 : (carveDungeon rng).1 c =
      (popLoop rng scanCells (bossPhase (carvePhase rng).1) (carvePhase rng).2.1).1 c :=
    rfl
  rw [e1, h1, h2, h4, h5]
  exact ⟨rfl, rfl⟩

theorem doorGraph_eq_of_doors (g1 g2 : Grid)
    (h : ∀ c, (g1 c).doors = (g2 c).doors) : doorGraph g1 = doorGraph g2 := by
  ext a b
  rw [doorGraph_adj, doorGraph_adj, h a, h b]

/-- From the carve invariant, the existing-room graph is a tree. -/
theorem existGraph_isTree (g : Grid)
    (hspawn : (g spawnCell).exists' = true)
    (hdoorsOk : ∀ c d, (g c).doors d = true →
      ∃ c', nbrCell c d = some c' ∧ (g c).exists' = true ∧
        (g c').exists' = true ∧ (g c').doors (oppDir d) = true)
    (hreach : ∀ c, (g c).exists' = true → Reach g spawnCell c)
    (hacyclic : (doorGraph g).IsAcyclic) :
    (existGraph g).IsTree := by
  have hsp : spawnCell ∈ existsSet g := hspawn
  have hlift : ∀ c (h : Reach g spawnCell c) (hc : c ∈ existsSet g),
      (existGraph g).Reachable ⟨spawnCell, hsp⟩ ⟨c, hc⟩ := by
    intro c h
    induction h with
    | refl => intro hc; exact SimpleGraph.Reachable.refl _
    | @tail b c h1 h2 ih =>
      intro hc
      obtain ⟨hne, d, hnb, hdb, hdc⟩ := h2
      obtain ⟨c', _, hexb, _, _⟩ := hdoorsOk b d hdb
      have hb : b ∈ existsSet g := hexb
      have step : (existGraph g).Adj ⟨b, hb⟩ ⟨c, hc⟩ := ⟨hne, d, hnb, hdb, hdc⟩
      exact (ih hb).trans (SimpleGraph.Adj.reachable step)
  constructor
  · rw [SimpleGraph.connected_iff]
    refine ⟨?_, ⟨⟨spawnCell, hsp⟩⟩⟩
    intro u v
    obtain ⟨uc, hu⟩ := u
    obtain ⟨vc, hv⟩ := v
    exact (hlift uc (hreach uc hu) hu).symm.trans (hlift vc (hreach vc hv) hv)
  · intro v c hc
    have hmap := hc.map
      (f := (SimpleGraph.Embedding.induce (G := doorGraph g) (existsSet g)).toHom)
      (SimpleGraph.Embedding.induce (G := doorGraph g) (existsSet g)).injective
    exact hacyclic _ hmap

theorem roomCount_congr (g1 g2 : Grid)
    (h : ∀ c, (g1 c).exists' = (g2 c).exists') : roomCount g1 = roomCount g2 := by
  unfold roomCount
  congr 1
  apply Finset.filter_congr
  intro c _
  rw [h c]

/-- The fully generated dungeon satisfies the structural facts needed for
the tree theorem, and its room count is between 2 and the drawn target. -/
theorem carveDungeon_structure (rng : RNG) :
    ((carveDungeon rng).1 spawnCell).exists' = true ∧
      (∀ c d, ((carveDungeon rng).1 c).doors d = true →
        ∃ c', nbrCell c d = some c' ∧ ((carveDungeon rng).1 c).exists' = true ∧
          ((carveDungeon rng).1 c').exists' = true ∧
          ((carveDungeon rng).1 c').doors (oppDir d) = true) ∧
      (∀ c, ((carveDungeon rng).1 c).exists' = true →
        Reach (carveDungeon rng).1 spawnCell c) ∧
      (doorGraph (carveDungeon rng).1).IsAcyclic ∧
      2 ≤ roomCount (carveDungeon rng).1 ∧
      roomCount (carveDungeon rng).1 ≤ (carveDungeon rng).2.2 ∧
      6 ≤ (carveDungeon rng).2.2 := by
  obtain ⟨hInv, h2, hle, h6⟩ := carvePhase_facts rng
  have hex : ∀ c, ((carveDungeon rng).1 c).exists' = ((carvePhase rng).1 c).exists' :=
    fun c => (carveDungeon_pres rng c).1
  have hdoors : ∀ c, ((carveDungeon rng).1 c).doors = ((carvePhase rng).1 c).doors :=
    fun c => (carveDungeon_pres rng c).2
  have hdg : doorGraph (carveDungeon rng).1 = doorGraph (carvePhase rng).1 :=
    doorGraph_eq_of_doors _ _ hdoors
  have hcount : roomCount (carveDungeon rng).1 = roomCount (carvePhase rng).1 :=
    roomCount_congr _ _ hex
  have htgt : (carveDungeon rng).2.2 = (carvePhase rng).2.2 := rfl
  refine ⟨?_, ?_, ?_, ?_, ?_, ?_, ?_⟩
  · rw [hex spawnCell]; exact hInv.spawnEx
  · intro c d hd
    rw [hdoors c] at hd
    obtain ⟨c', h1', h2', h3', h4'⟩ := hInv.doorsOk c d hd
    exact ⟨c', h1', by rw [hex c]; exact h2', by rw [hex c']; exact h3',
      by rw [hdoors c']; exact h4'⟩
  · intro c hc
    rw [hex c] at hc
    unfold Reach
    rw [hdg]
    exact hInv.reach c hc
  · rw [hdg]; exact hInv.acyclic
  · rw [hcount]; exact h2
  · rw [hcount, htgt]; exact hle
  · rw [htgt]; exact h6

/-- C3: for every dungeon produced by the generator, the graph on the
existing rooms with door-connection edges is a tree (connected and
acyclic, containing the spawn cell), and the number of existing rooms is
between 1 and the requested target count inclusive. -/
theorem carveDungeon_isTree (rng : RNG) :
    (existGraph (carveDungeon rng).1).IsTree ∧
      1 ≤ roomCount (carveDungeon rng).1 ∧
      roomCount (carveDungeon rng).1 ≤ (carveDungeon rng).2.2 := by
  obtain ⟨hsp, hdoorsOk, hreach, hacyclic, h2, hle, _⟩ := carveDungeon_structure rng
  exact ⟨existGraph_isTree _ hsp hdoorsOk hreach hacyclic, by omega, hle⟩

/-- C5: after generation, a room's door bit in direction `d` is set iff
the adjacent cell in direction `d` is in bounds, contains an existing
room, and that room's door bit in the opposite direction is set. -/
theorem doors_reciprocal (rng : RNG) (c : Cell) (d : Dir) :
    ((carveDungeon rng).1 c).doors d = true ↔
      ∃ c', nbrCell c d = some c' ∧ ((carveDungeon rng).1 c').exists' = true ∧
        ((carveDungeon rng).1 c').doors (oppDir d) = true := by
  obtain ⟨_, hdoorsOk, _, _, _, _, _⟩ := carveDungeon_structure rng
  constructor
  · intro hd
    obtain ⟨c', h1, _, h3, h4⟩ := hdoorsOk c d hd
    exact ⟨c', h1, h3, h4⟩
  · rintro ⟨c', h1, h2, h3⟩
    obtain ⟨c'', hb1, _, _, hb4⟩ := hdoorsOk c' (oppDir d) h3
    have hcc : c'' = c :=
      Option.some.inj (hb1.symm.trans (nbrCell_symm c c' d h1))
    rw [hcc, oppDir_oppDir] at hb4
    exact hb4

theorem rowMajorLT_asymm : ∀ a b : Cell, rowMajorLT a b → ¬ rowMajorLT b a := by
  intro a b
  unfold rowMajorLT
  omega

theorem rowMajorLT_irrefl : ∀ a : Cell, ¬ rowMajorLT a a := by
  intro a
  unfold rowMajorLT
  omega

theorem distSq_nonneg : ∀ c : Cell, 0 ≤ distSq c := by
  intro c
  unfold distSq
  exact add_nonneg (mul_self_nonneg _) (mul_self_nonneg _)

/-- The boss scan maintains its search invariant. -/
theorem bossScan_invariant (g : Grid) :
    ∀ (l A : List Cell) (st : ℤ × Cell),
      (∀ a ∈ A, ∀ c ∈ l, rowMajorLT a c) → l.Pairwise rowMajorLT →
      bossInv g st A → bossInv g (bossScan g l st) (A ++ l) := by
  intro l
  induction l with
  | nil => intro A st _ _ hP; simpa [bossScan] using hP
  | cons c0 cs ih =>
    intro A st hbefore hpair hP
    have hstep : bossInv g (bossStep g st c0) (A ++ [c0]) := by
      by_cases hex : (g c0).exists' = true
      · have hgt0 : 0 ≤ distSq c0 := distSq_nonneg c0
        rcases hP with ⟨hst, hnone⟩ | ⟨h1, h2, h3, h4⟩
        · have hgt : distSq c0 > st.1 := by rw [hst]; simpa using by omega
          unfold bossStep
          rw [if_pos hex, if_pos hgt]
          refine Or.inr ⟨hex, by simp, rfl, ?_⟩
          intro c hc hcex
          rcases List.mem_append.mp hc with hcA | hc0'
          · exact absurd hcex (by rw [hnone c hcA]; simp)
          · have : c = c0 := by simpa using hc0'
            rw [this]
            exact ⟨le_refl _, fun h => absurd h (rowMajorLT_irrefl c0)⟩
        · unfold bossStep
          rw [if_pos hex]
          by_cases hgt : distSq c0 > st.1
          · rw [if_pos hgt]
            refine Or.inr ⟨hex, by simp, rfl, ?_⟩
            intro c hc hcex
            rcases List.mem_append.mp hc with hcA | hc0'
            · obtain ⟨hle', _⟩ := h4 c hcA hcex
              exact ⟨by omega, fun _ => by omega⟩
            · have : c = c0 := by simpa using hc0'
              rw [this]
              exact ⟨le_refl _, fun h => absurd h (rowMajorLT_irrefl c0)⟩
          · rw [if_neg hgt]
            refine Or.inr ⟨h1, List.mem_append.mpr (Or.inl h2), h3, ?_⟩
            intro c hc hcex
            rcases List.mem_append.mp hc with hcA | hc0'
            · exact h4 c hcA hcex
            · have hcc : c = c0 := by simpa using hc0'
              rw [hcc]
              refine ⟨by omega, fun hlt => ?_⟩
              exact absurd hlt (rowMajorLT_asymm _ _
                (hbefore st.2 h2 c0 (List.mem_cons_self c0 cs)))
      · unfold bossStep
        rw [if_neg hex]
        rcases hP with ⟨hst, hnone⟩ | ⟨h1, h2, h3, h4⟩
        · refine Or.inl ⟨hst, ?_⟩
          intro c hc
          rcases List.mem_append.mp hc with hcA | hc0'
          · exact hnone c hcA
          · have : c = c0 := by simpa using hc0'
            rw [this]
            exact Bool.eq_false_iff.mpr hex
        · refine Or.inr ⟨h1, List.mem_append.mpr (Or.inl h2), h3, ?_⟩
          intro c hc hcex
          rcases List.mem_append.mp hc with hcA | hc0'
          · exact h4 c hcA hcex
          · have : c = c0 := by simpa using hc0'
            rw [this] at hcex ⊢
            exact absurd hcex hex
    have hbefore2 : ∀ a ∈ A ++ [c0], ∀ c ∈ cs, rowMajorLT a c := by
      intro a ha c hc
      rcases List.mem_append.mp ha with haA | ha0
      · exact hbefore a haA c (List.mem_cons_of_mem c0 hc)
      · have : a = c0 := by simpa using ha0
        rw [this]
        exact (List.pairwise_cons.mp hpair).1 c hc
    have := ih (A ++ [c0]) (bossStep g st c0) hbefore2
      (List.pairwise_cons.mp hpair).2 hstep
    rw [List.append_assoc] at this
    simpa [bossScan] using this

theorem scanCells_pairwise : scanCells.Pairwise rowMajorLT := by decide

theorem mem_scanCells : ∀ c : Cell, c ∈ scanCells := by decide

/-- The boss cell of any grid whose spawn room exists: it exists, its
squared distance to spawn is maximal among existing rooms, and ties are
broken by the first cell in row-major scan order. -/
theorem bossCell_spec (g : Grid) (hspawn : (g spawnCell).exists' = true) :
    (g (bossCell g)).exists' = true ∧
      (∀ c, (g c).exists' = true → distSq c ≤ distSq (bossCell g)) ∧
      (∀ c, (g c).exists' = true → distSq c = distSq (bossCell g) →
        ¬ rowMajorLT c (bossCell g)) := by
  have hinv := bossScan_invariant g scanCells [] (-1, spawnCell)
    (by intro a ha; exact absurd ha (List.not_mem_nil a)) scanCells_pairwise
    (Or.inl ⟨rfl, by intro c hc; exact absurd hc (List.not_mem_nil c)⟩)
  rw [List.nil_append] at hinv
  unfold bossCell
  rcases hinv with ⟨_, hnone⟩ | ⟨h1, _, h3, h4⟩
  · exact absurd hspawn (by rw [hnone spawnCell (mem_scanCells spawnCell)]; simp)
  · refine ⟨h1, ?_, ?_⟩
    · intro c hc
      have := (h4 c (mem_scanCells c) hc).1
      rw [h3] at this
      exact this
    · intro c hc hdist hlt
      have := (h4 c (mem_scanCells c) hc).2 hlt
      rw [h3] at this
      omega

/-- C4: after generation exactly one room has the boss flag; it is an
existing room at maximal squared grid distance from spawn, with ties
broken by the first room in row-major scan order.  In the 5×5 scenario
with carved cells `{(2,2),(3,2),(3,1),(2,1),(2,0),(1,1)}` the boss is
assigned to `(2,0)`, the unique maximum (distance 4). -/
theorem boss_placement (rng : RNG) :
    (∃ b, ((carveDungeon rng).1 b).boss = true ∧
      (∀ c, ((carveDungeon rng).1 c).boss = true → c = b) ∧
      ((carveDungeon rng).1 b).exists' = true ∧
      (∀ c, ((carveDungeon rng).1 c).exists' = true → distSq c ≤ distSq b) ∧
      (∀ c, ((carveDungeon rng).1 c).exists' = true → distSq c = distSq b →
        ¬ rowMajorLT c b)) ∧
    (∀ c, ((bossPhase gScenario) c).boss = true ↔
      c = (⟨2, by decide⟩, ⟨0, by decide⟩)) := by
  constructor
  · obtain ⟨hInv, _, _, _⟩ := carvePhase_facts rng
    have hboss1 : ∀ c, ((carveDungeon rng).1 c).boss =
        ((bossPhase (carvePhase rng).1) c).boss := by
      intro c
      exact (popLoop_pres rng scanCells (bossPhase (carvePhase rng).1)
        (carvePhase rng).2.1 c).2.2
    have hbp : ∀ c, ((bossPhase (carvePhase rng).1) c).boss = true ↔
        c = bossCell (carvePhase rng).1 := by
      intro c
      unfold bossPhase
      by_cases hc : c = bossCell (carvePhase rng).1
      · rw [hc, updateRoom_same]
        simp [hc]
      · rw [updateRoom_other _ _ _ _ hc]
        simp [hc, (hInv.fresh c).1]
    have hexeq : ∀ c, ((carveDungeon rng).1 c).exists' =
        ((carvePhase rng).1 c).exists' := fun c => (carveDungeon_pres rng c).1
    obtain ⟨hbex, hbmax, hbtie⟩ := bossCell_spec (carvePhase rng).1 hInv.spawnEx
    refine ⟨bossCell (carvePhase rng).1, ?_, ?_, ?_, ?_, ?_⟩
    · rw [hboss1, hbp]
    · intro c hc
      rw [hboss1, hbp] at hc
      exact hc
    · rw [hexeq]
      exact hbex
    · intro c hc
      rw [hexeq] at hc
      exact hbmax c hc
    · intro c hc
      rw [hexeq] at hc
      exact hbtie c hc
  · set_option maxRecDepth 20000 in with_unfolding_all decide

theorem mkEnemies_length (rng : RNG) (b : Bool) :
    ∀ (n k i : ℕ), ((mkEnemies rng b n k i).1).length = n := by
  intro n
  induction n with
  | zero => intro k i; rfl
  | succ n ih =>
    intro k i
    rw [mkEnemies]
    simpa using ih _ _

theorem spawnEnemies_spec (rng : RNG) (k : ℕ) (r : Room) :
    ((spawnEnemies rng k r).1).cleared =
        (((spawnEnemies rng k r).1).enemies).isEmpty ∧
      (r.boss = true → ((spawnEnemies rng k r).1).enemies.length = 6) ∧
      (r.boss = false → 2 ≤ ((spawnEnemies rng k r).1).enemies.length ∧
        ((spawnEnemies rng k r).1).enemies.length ≤ 5) := by
  refine ⟨rfl, ?_, ?_⟩
  · intro hb
    show ((mkEnemies rng r.boss (if r.boss then 6 else randNat rng k 2 5)
      (k + 1) 0).1).length = 6
    rw [hb, if_pos rfl, mkEnemies_length]
  · intro hb
    show 2 ≤ ((mkEnemies rng r.boss (if r.boss then 6 else randNat rng k 2 5)
        (k + 1) 0).1).length ∧
      ((mkEnemies rng r.boss (if r.boss then 6 else randNat rng k 2 5)
        (k + 1) 0).1).length ≤ 5
    rw [hb]
    simp only [Bool.false_eq_true, if_neg, ite_false, mkEnemies_length]
    exact randNat_le rng k 2 5 (by omega)

theorem popLoop_not_mem (rng : RNG) :
    ∀ (l : List Cell) (g : Grid) (k : ℕ) (c : Cell), c ∉ l →
      (popLoop rng l g k).1 c = g c := by
  intro l
  induction l with
  | nil => intro g k c _; rfl
  | cons c0 cs ih =>
    intro g k c hc
    have hc0 : c ≠ c0 := fun h => hc (h ▸ List.mem_cons_self c0 cs)
    have hcs : c ∉ cs := fun h => hc (List.mem_cons_of_mem c0 h)
    rw [popLoop]
    by_cases hex : (g c0).exists' = true
    · rw [if_pos hex]
      by_cases hsp : c0 = spawnCell
      · rw [if_pos hsp, ih _ _ _ hcs, updateRoom_other _ _ _ _ hc0]
      · rw [if_neg hsp, ih _ _ _ hcs, updateRoom_other _ _ _ _ hc0]
    · rw [if_neg hex]
      exact ih _ _ _ hcs

/-- What the population loop does to each cell it visits: non-existing
rooms are untouched, the spawn room is only marked cleared, and every
other existing room is replaced by a `spawnEnemies` result computed from
it (at some RNG position). -/
theorem popLoop_spec (rng : RNG) :
    ∀ (l : List Cell) (g : Grid) (k : ℕ), l.Nodup → ∀ c ∈ l,
      ((g c).exists' = false → (popLoop rng l g k).1 c = g c) ∧
      ((g c).exists' = true → c = spawnCell →
        ((popLoop rng l g k).1 c).cleared = true ∧
        ((popLoop rng l g k).1 c).enemies = (g c).enemies ∧
        ((popLoop rng l g k).1 c).boss = (g c).boss) ∧
      ((g c).exists' = true → c ≠ spawnCell →
        ∃ k', (popLoop rng l g k).1 c = (spawnEnemies rng k' (g c)).1) := by
  intro l
  induction l with
  | nil => intro g k _ c hc; exact absurd hc (List.not_mem_nil c)
  | cons c0 cs ih =>
    intro g k hnodup c hc
    have hnd := List.nodup_cons.mp hnodup
    rcases List.mem_cons.mp hc with hceq | hctail
    · -- c is the head: the step writes it, the tail never touches it again
      refine ⟨?_, ?_, ?_⟩
      · intro hex
        rw [popLoop, hceq] at *
        rw [if_neg (by rw [hex]; simp)]
        exact popLoop_not_mem rng cs g k c0 hnd.1 ▸ (by rw [hceq])
      · intro hex hsp
        rw [popLoop, hceq]
        rw [hceq] at hex hsp
        rw [if_pos hex, if_pos hsp]
        rw [popLoop_not_mem rng cs _ k c0 hnd.1, updateRoom_same]
        exact ⟨rfl, rfl, rfl⟩
      · intro hex hsp
        rw [popLoop, hceq]
        rw [hceq] at hex hsp
        rw [if_pos hex, if_neg hsp]
        rw [popLoop_not_mem rng cs _ _ c0 hnd.1, updateRoom_same]
        exact ⟨k, rfl⟩
    · -- c is further down: the head's write does not touch it
      have hne : c ≠ c0 := fun h => hnd.1 (h ▸ hctail)
      rw [popLoop]
      by_cases hex0 : (g c0).exists' = true
      · rw [if_pos hex0]
        by_cases hsp0 : c0 = spawnCell
        · rw [if_pos hsp0]
          have hg' : (updateRoom g c0 fun r => { r with cleared := true }) c = g c :=
            updateRoom_other _ _ _ _ hne
          have := ih (updateRoom g c0 fun r => { r with cleared := true }) k
            hnd.2 c hctail
          rw [hg'] at this
          exact this
        · rw [if_neg hsp0]
          have hg' : (updateRoom g c0 fun _ => (spawnEnemies rng k (g c0)).1) c = g c :=
            updateRoom_other _ _ _ _ hne
          have := ih (updateRoom g c0 fun _ => (spawnEnemies rng k (g c0)).1)
            ((spawnEnemies rng k (g c0)).2) hnd.2 c hctail
          rw [hg'] at this
          exact this
      · rw [if_neg hex0]
        exact ih g k hnd.2 c hctail

theorem scanCells_nodup : scanCells.Nodup := by decide

theorem bossPhase_boss_iff (g : Grid) (hfresh : ∀ c, (g c).boss = false) :
    ∀ c, ((bossPhase g) c).boss = true ↔ c = bossCell g := by
  intro c
  unfold bossPhase
  by_cases hc : c = bossCell g
  · rw [hc, updateRoom_same]
    simp [hc]
  · rw [updateRoom_other _ _ _ _ hc]
    simp [hc, hfresh c]

theorem bossCell_ne_spawn (g : Grid) (hspawn : (g spawnCell).exists' = true)
    (hcnt : 2 ≤ roomCount g) : bossCell g ≠ spawnCell := by
  obtain ⟨_, hmax, _⟩ := bossCell_spec g hspawn
  have h1 : 1 < (Finset.univ.filter fun c => (g c).exists' = true).card := hcnt
  obtain ⟨b, hb, hbne⟩ := Finset.exists_ne_of_one_lt_card h1 spawnCell
  have hbex : (g b).exists' = true := (Finset.mem_filter.mp hb).2
  have h1b : 1 ≤ distSq b := by
    have hgen : ∀ c : Cell, c ≠ spawnCell → 1 ≤ distSq c := by decide
    exact hgen b hbne
  intro hbs
  have hle := hmax b hbex
  rw [hbs] at hle
  have h0 : distSq spawnCell = 0 := by decide
  omega

/-- Shared content lemma: what population establishes on the generated
grid. -/
theorem carveDungeon_population (rng : RNG) :
    (((carveDungeon rng).1 spawnCell).cleared = true ∧
      ((carveDungeon rng).1 spawnCell).enemies = []) ∧
    (∀ c, ((carveDungeon rng).1 c).exists' = true → c ≠ spawnCell →
      (((carveDungeon rng).1 c).boss = true →
        ((carveDungeon rng).1 c).enemies.length = 6) ∧
      (((carveDungeon rng).1 c).boss = false →
        2 ≤ ((carveDungeon rng).1 c).enemies.length ∧
          ((carveDungeon rng).1 c).enemies.length ≤ 5)) ∧
    (∀ c, ((carveDungeon rng).1 c).exists' = true →
      (((carveDungeon rng).1 c).cleared = true ↔
        ((carveDungeon rng).1 c).enemies = [])) ∧
    (∀ c, ((carveDungeon rng).1 c).boss = true → c ≠ spawnCell) := by
  obtain ⟨hInv, hcnt2, _, _⟩ := carvePhase_facts rng
  have hfin : ∀ c, (carveDungeon rng).1 c =
      (popLoop rng scanCells (bossPhase (carvePhase rng).1)
        (carvePhase rng).2.1).1 c := fun c => rfl
  have hBex : ∀ c, ((bossPhase (carvePhase rng).1) c).exists' =
      ((carvePhase rng).1 c).exists' := fun c => (bossPhase_pres _ c).1
  have hBclr : ∀ c, ((bossPhase (carvePhase rng).1) c).cleared = false := by
    intro c
    rw [(bossPhase_pres _ c).2.2.1]
    exact (hInv.fresh c).2.1
  have hBene : ∀ c, ((bossPhase (carvePhase rng).1) c).enemies = [] := by
    intro c
    rw [(bossPhase_pres _ c).2.2.2]
    exact (hInv.fresh c).2.2
  have hexeq : ∀ c, ((carveDungeon rng).1 c).exists' =
      ((carvePhase rng).1 c).exists' := fun c => (carveDungeon_pres rng c).1
  refine ⟨?_, ?_, ?_, ?_⟩
  · -- spawn room
    have hsR := (popLoop_spec rng scanCells (bossPhase (carvePhase rng).1)
      (carvePhase rng).2.1 scanCells_nodup spawnCell (mem_scanCells _)).2.1
      (by rw [hBex]; exact hInv.spawnEx) rfl
    rw [hfin spawnCell]
    exact ⟨hsR.1, hsR.2.1.trans (hBene spawnCell)⟩
  · -- other existing rooms
    intro c hex hsp
    rw [hexeq c] at hex
    obtain ⟨k', hk'⟩ := (popLoop_spec rng scanCells (bossPhase (carvePhase rng).1)
      (carvePhase rng).2.1 scanCells_nodup c (mem_scanCells _)).2.2
      (by rw [hBex]; exact hex) hsp
    have hboss : ((carveDungeon rng).1 c).boss =
        ((bossPhase (carvePhase rng).1) c).boss := by
      rw [hfin c, hk']
      exact (spawnEnemies_pres rng k' _).2.2
    obtain ⟨_, hlen6, hlen25⟩ := spawnEnemies_spec rng k'
      ((bossPhase (carvePhase rng).1) c)
    constructor
    · intro hb
      rw [hboss] at hb
      rw [hfin c, hk']
      exact hlen6 hb
    · intro hb
      rw [hboss] at hb
      rw [hfin c, hk']
      exact hlen25 hb
  · -- cleared equals emptiness for existing rooms
    intro c hex
    rw [hexeq c] at hex
    by_cases hsp : c = spawnCell
    · have hsR := (popLoop_spec rng scanCells (bossPhase (carvePhase rng).1)
        (carvePhase rng).2.1 scanCells_nodup c (mem_scanCells _)).2.1
        (by rw [hBex, hsp]; exact hInv.spawnEx) hsp
      rw [hfin c]
      rw [hsR.1, hsR.2.1]
      simp [hsp, hBene]
    · obtain ⟨k', hk'⟩ := (popLoop_spec rng scanCells (bossPhase (carvePhase rng).1)
        (carvePhase rng).2.1 scanCells_nodup c (mem_scanCells _)).2.2
        (by rw [hBex]; exact hex) hsp
      rw [hfin c, hk']
      rw [(spawnEnemies_spec rng k' _).1]
      exact ⟨fun h => List.isEmpty_iff.mp h, fun h => by rw [h]; rfl⟩
  · -- the boss room is never the spawn room
    intro c hb
    have hboss : ((carveDungeon rng).1 c).boss =
        ((bossPhase (carvePhase rng).1) c).boss :=
      (popLoop_pres rng scanCells _ _ c).2.2
    rw [hboss] at hb
    have hcb := (bossPhase_boss_iff (carvePhase rng).1
      (fun c' => (hInv.fresh c').1) c).mp hb
    rw [hcb]
    exact bossCell_ne_spawn (carvePhase rng).1 hInv.spawnEx hcnt2

/-- C9: immediately after generation the spawn room is cleared with no
enemies; every other existing room has 2-5 enemies, or exactly 6 when it
is the boss room (and the boss room is never the spawn room); and for
every existing room the cleared flag equals the emptiness of its enemy
list. -/
theorem population_after_generation (rng : RNG) :
    (((carveDungeon rng).1 spawnCell).cleared = true ∧
      ((carveDungeon rng).1 spawnCell).enemies = []) ∧
    (∀ c, ((carveDungeon rng).1 c).exists' = true → c ≠ spawnCell →
      (((carveDungeon rng).1 c).boss = true →
        ((carveDungeon rng).1 c).enemies.length = 6) ∧
      (((carveDungeon rng).1 c).boss = false →
        2 ≤ ((carveDungeon rng).1 c).enemies.length ∧
          ((carveDungeon rng).1 c).enemies.length ≤ 5)) ∧
    (∀ c, ((carveDungeon rng).1 c).exists' = true →
      (((carveDungeon rng).1 c).cleared = true ↔
        ((carveDungeon rng).1 c).enemies = [])) ∧
    (∀ c, ((carveDungeon rng).1 c).boss = true → c ≠ spawnCell) :=
  carveDungeon_population rng

theorem dt_pos : 0 < dt := by norm_num [dt]

theorem liveOverlapCount_cons (pr : ℚ) (pp : Vec) (e : Enemy) (es : List Enemy) :
    liveOverlapCount pr pp (e :: es) =
      (if !e.dead && decide (circlesOverlap pp pr e.p e.r) then 1 else 0) +
        liveOverlapCount pr pp es := by
  unfold liveOverlapCount
  rw [List.filter]
  by_cases h : (!e.dead && decide (circlesOverlap pp pr e.p e.r)) = true
  · rw [h]; simp; omega
  · rw [Bool.eq_false_iff.mpr h]; simp [h]

theorem liveOverlapCount_le_length (pr : ℚ) (pp : Vec) (es : List Enemy) :
    liveOverlapCount pr pp es ≤ es.length :=
  List.length_filter_le _ es

/-- A hit-check pass that meets no live overlapping enemy changes
nothing: in particular the invulnerability timer does not tick with real
time. -/
theorem hitLoop_no_overlap (pr : ℚ) :
    ∀ (es : List Enemy) (pp : Vec) (hp : ℤ) (cd : ℚ) (ro : Bool),
      liveOverlapCount pr pp es = 0 →
      hitLoop pr es pp hp cd ro = (pp, hp, cd, ro) := by
  intro es
  induction es with
  | nil => intro pp hp cd ro _; rfl
  | cons e es ih =>
    intro pp hp cd ro h
    rw [liveOverlapCount_cons] at h
    rw [hitLoop]
    by_cases hd : e.dead
    · rw [if_pos hd]
      refine ih pp hp cd ro ?_
      rw [if_neg (by simp [hd])] at h
      omega
    · rw [if_neg hd]
      by_cases hov : circlesOverlap pp pr e.p e.r
      · rw [if_pos (by simp [hd, hov])] at h
        omega
      · rw [if_neg hov]
        refine ih pp hp cd ro ?_
        rw [if_neg (by simp [hov])] at h
        omega

/-- A hit-check pass whose timer covers one decrement per enemy deals no
damage, moves nothing, and decrements the timer by exactly `dt` per live
overlapping enemy. -/
theorem hitLoop_no_hit (pr : ℚ) :
    ∀ (es : List Enemy) (pp : Vec) (hp : ℤ) (cd : ℚ) (ro : Bool),
      dt * es.length ≤ cd →
      hitLoop pr es pp hp cd ro =
        (pp, hp, cd - dt * (liveOverlapCount pr pp es : ℚ), ro) := by
  intro es
  induction es with
  | nil => intro pp hp cd ro _; simp [hitLoop, liveOverlapCount]
  | cons e es ih =>
    intro pp hp cd ro h
    have hdt := dt_pos
    have hlen0 : (0 : ℚ) ≤ es.length := Nat.cast_nonneg _
    have hprod : 0 ≤ dt * es.length := mul_nonneg (le_of_lt hdt) hlen0
    have hexp : dt * es.length + dt ≤ cd := by
      rw [List.length_cons] at h
      push_cast at h
      nlinarith
    have hlen : dt * es.length ≤ cd - dt := by linarith
    have htail : dt * es.length ≤ cd := by linarith
    have hcdpos : 0 < cd := by linarith
    rw [hitLoop]
    by_cases hd : e.dead
    · rw [if_pos hd]
      rw [ih pp hp cd ro htail]
      have hcnt : liveOverlapCount pr pp (e :: es) = liveOverlapCount pr pp es := by
        rw [liveOverlapCount_cons, if_neg (by simp [hd])]
        omega
      rw [hcnt]
    · rw [if_neg hd]
      by_cases hov : circlesOverlap pp pr e.p e.r
      · rw [if_pos hov, if_neg (by linarith), max_eq_right (by linarith),
          ih pp hp (cd - dt) ro hlen]
        have hcnt : liveOverlapCount pr pp (e :: es) =
            1 + liveOverlapCount pr pp es := by
          rw [liveOverlapCount_cons, if_pos (by simp [hd, hov])]
        rw [hcnt]
        have harith : cd - dt - dt * (liveOverlapCount pr pp es : ℚ) =
            cd - dt * ((1 + liveOverlapCount pr pp es : ℕ) : ℚ) := by
          push_cast
          ring
        rw [harith]
      · rw [if_neg hov, ih pp hp cd ro htail]
        have hcnt : liveOverlapCount pr pp (e :: es) = liveOverlapCount pr pp es := by
          rw [liveOverlapCount_cons, if_neg (by simp [hov])]
          omega
        rw [hcnt]

theorem cooldown_cover (n : ℕ) (h : n ≤ 107) : dt * (n : ℚ) ≤ 9 / 10 - dt := by
  have h1 : (n : ℚ) ≤ 107 := by exact_mod_cast h
  have h2 : dt * (n : ℚ) ≤ dt * 107 :=
    mul_le_mul_of_nonneg_left h1 (le_of_lt dt_pos)
  have h3 : dt * (107 : ℚ) = 9 / 10 - dt := by norm_num [dt]
  linarith

/-- A hit-check pass entered with the timer at or below zero and at least
one live overlapping enemy: the player loses exactly 1 hp, is knocked 20
px away from the first live overlapping enemy in list order, the run-over
flag picks up `hp - 1 ≤ 0`, and the timer is rearmed to the full 0.9 s
cooldown and then ticked down once in the hitting iteration and once per
later live overlapping enemy. -/
theorem hitLoop_hit (pr : ℚ) :
    ∀ (es : List Enemy) (pp : Vec) (hp : ℤ) (cd : ℚ) (ro : Bool),
      cd ≤ 0 → es.length ≤ 108 → 1 ≤ liveOverlapCount pr pp es →
      ∃ e n, firstLiveOverlap pr pp es = some e ∧ n + 1 ≤ es.length ∧
        hitLoop pr es pp hp cd ro =
          (pp.add ((norm (pp.sub e.p)).smul 20), hp - 1,
           (9 / 10 - dt) - dt * (n : ℚ), ro || decide (hp - 1 ≤ 0)) := by
  intro es
  induction es with
  | nil => intro pp hp cd ro _ _ hcnt; exact absurd hcnt (by simp [liveOverlapCount])
  | cons e es ih =>
    intro pp hp cd ro hcd hlen hcnt
    rw [List.length_cons] at hlen
    by_cases hd : e.dead
    · have hskip : liveOverlapCount pr pp (e :: es) = liveOverlapCount pr pp es := by
        rw [liveOverlapCount_cons, if_neg (by simp [hd])]
        omega
      rw [hskip] at hcnt
      obtain ⟨e', n, h1, h2, h3⟩ := ih pp hp cd ro hcd (by omega) hcnt
      refine ⟨e', n, ?_, by simp; omega, ?_⟩
      · rw [firstLiveOverlap, if_neg (by simp [hd])]
        exact h1
      · rw [hitLoop, if_pos hd]
        exact h3
    · by_cases hov : circlesOverlap pp pr e.p e.r
      · have hmax : max 0 ((9:ℚ) / 10 - dt) = 9 / 10 - dt :=
          max_eq_right (by norm_num [dt])
        have hcover : dt * (es.length : ℚ) ≤ 9 / 10 - dt :=
          cooldown_cover es.length (by omega)
        refine ⟨e, liveOverlapCount pr
          (pp.add ((norm (pp.sub e.p)).smul 20)) es, ?_, ?_, ?_⟩
        · rw [firstLiveOverlap, if_pos (by simp [hd, hov])]
        · have := liveOverlapCount_le_length pr
            (pp.add ((norm (pp.sub e.p)).smul 20)) es
          simp
          omega
        · rw [hitLoop, if_neg hd, if_pos hov, if_pos hcd, hmax,
            hitLoop_no_hit pr es _ _ _ _ hcover]
      · have hskip : liveOverlapCount pr pp (e :: es) = liveOverlapCount pr pp es := by
          rw [liveOverlapCount_cons, if_neg (by simp [hov])]
          omega
        rw [hskip] at hcnt
        obtain ⟨e', n, h1, h2, h3⟩ := ih pp hp cd ro hcd (by omega) hcnt
        refine ⟨e', n, ?_, by simp; omega, ?_⟩
        · rw [firstLiveOverlap, if_neg (by simp [hov])]
          exact h1
        · rw [hitLoop, if_neg hd, if_neg hov]
          exact h3

/-- Across one hit-check pass the player hp drops by at most 1 (for any
room the populator can produce, whose enemy count is far below 108). -/
theorem hitLoop_hp_bound (pr : ℚ) :
    ∀ (es : List Enemy) (pp : Vec) (hp : ℤ) (cd : ℚ) (ro : Bool),
      es.length ≤ 108 →
      hp - 1 ≤ (hitLoop pr es pp hp cd ro).2.1 ∧
        (hitLoop pr es pp hp cd ro).2.1 ≤ hp := by
  intro es
  induction es with
  | nil =>
    intro pp hp cd ro _
    exact ⟨by show hp - 1 ≤ hp; omega, by show hp ≤ hp; omega⟩
  | cons e es ih =>
    intro pp hp cd ro hlen
    rw [List.length_cons] at hlen
    rw [hitLoop]
    by_cases hd : e.dead
    · rw [if_pos hd]; exact ih pp hp cd ro (by omega)
    · rw [if_neg hd]
      by_cases hov : circlesOverlap pp pr e.p e.r
      · rw [if_pos hov]
        by_cases hcd : cd ≤ 0
        · rw [if_pos hcd]
          have hmax : max 0 ((9:ℚ) / 10 - dt) = 9 / 10 - dt :=
            max_eq_right (by norm_num [dt])
          rw [hmax, hitLoop_no_hit pr es _ _ _ _
            (cooldown_cover es.length (by omega))]
          exact ⟨by dsimp only; omega, by dsimp only; omega⟩
        · rw [if_neg hcd]
          exact ih _ _ _ _ (by omega)
      · rw [if_neg hov]
        exact ih pp hp cd ro (by omega)

/-- If the hit-check pass reports the run over, either it already was or
the resulting hp is at or below zero. -/
theorem hitLoop_ro (pr : ℚ) :
    ∀ (es : List Enemy) (pp : Vec) (hp : ℤ) (cd : ℚ) (ro : Bool),
      es.length ≤ 108 →
      (hitLoop pr es pp hp cd ro).2.2.2 = true →
      ro = true ∨ (hitLoop pr es pp hp cd ro).2.1 ≤ 0 := by
  intro es
  induction es with
  | nil => intro pp hp cd ro _ h; exact Or.inl h
  | cons e es ih =>
    intro pp hp cd ro hlen h
    rw [List.length_cons] at hlen
    rw [hitLoop] at h ⊢
    by_cases hd : e.dead
    · rw [if_pos hd] at h ⊢; exact ih pp hp cd ro (by omega) h
    · rw [if_neg hd] at h ⊢
      by_cases hov : circlesOverlap pp pr e.p e.r
      · rw [if_pos hov] at h ⊢
        by_cases hcd : cd ≤ 0
        · rw [if_pos hcd] at h ⊢
          have hmax : max 0 ((9:ℚ) / 10 - dt) = 9 / 10 - dt :=
            max_eq_right (by norm_num [dt])
          rw [hmax, hitLoop_no_hit pr es _ _ _ _
            (cooldown_cover es.length (by omega))] at h ⊢
          simp at h
          rcases h with h | h
          · exact Or.inl h
          · exact Or.inr (by simpa using h)
        · rw [if_neg hcd] at h ⊢
          exact ih _ _ _ _ (by omega) h
      · rw [if_neg hov] at h ⊢
        exact ih pp hp cd ro (by omega) h

theorem playerUpdateMove_hp (i : Input) (pl : Player) :
    (playerUpdateMove i pl).hp = pl.hp := rfl

theorem playerShoot_hp (d : Vec) (pl : Player) :
    (playerShoot d pl).hp = pl.hp := by
  unfold playerShoot
  split <;> rfl

theorem hp_of_ite (c : Prop) [Decidable c] (a b : Player) (ha : a.hp = b.hp) :
    (if c then a else b).hp = b.hp := by
  split
  · exact ha
  · rfl

theorem playerShootInput_hp (i : Input) (pl : Player) :
    (playerShootInput i pl).hp = pl.hp := by
  unfold playerShootInput
  dsimp only
  exact hp_of_ite _ _ _ (playerShoot_hp _ _)

theorem cooldown_step_hp (pl : Player) :
    (if pl.shotCooldown > 0 then { pl with shotCooldown := pl.shotCooldown - dt }
      else pl).hp = pl.hp := by
  split <;> rfl

theorem phaseInput_fields (i : Input) (s : GameState) :
    (phaseInput i s).dungeon = s.dungeon ∧ (phaseInput i s).cursor = s.cursor ∧
      (phaseInput i s).runOver = s.runOver ∧
      (phaseInput i s).allCleared = s.allCleared ∧
      (phaseInput i s).hurtCD = s.hurtCD ∧
      (phaseInput i s).player.hp = s.player.hp := by
  refine ⟨rfl, rfl, rfl, rfl, rfl, ?_⟩
  calc (phaseInput i s).player.hp
      = (playerShootInput i (playerUpdateMove i s.player)).hp :=
        cooldown_step_hp (playerShootInput i (playerUpdateMove i s.player))
    _ = (playerUpdateMove i s.player).hp := playerShootInput_hp _ _
    _ = s.player.hp := playerUpdateMove_hp _ _

theorem phaseEnemies_fields (s : GameState) :
    (phaseEnemies s).player = s.player ∧ (phaseEnemies s).cursor = s.cursor ∧
      (phaseEnemies s).runOver = s.runOver ∧
      (phaseEnemies s).allCleared = s.allCleared ∧
      (phaseEnemies s).hurtCD = s.hurtCD :=
  ⟨rfl, rfl, rfl, rfl, rfl⟩

theorem bulletHit_length (es : List Enemy) :
    ∀ b, ((bulletHit es b).1).length = es.length := by
  induction es with
  | nil => intro b; rfl
  | cons e es ih =>
    intro b
    rw [bulletHit]
    by_cases hd : e.dead
    · rw [if_pos hd]
      simp [ih b]
    · rw [if_neg hd]
      by_cases hov : circlesOverlap b.p b.r e.p e.r
      · rw [if_pos hov]
        simp
      · rw [if_neg hov]
        simp [ih b]

theorem updateBulletsLoop_length :
    ∀ (bs : List Bullet) (es : List Enemy),
      ((updateBulletsLoop bs es).2).length = es.length := by
  intro bs
  induction bs with
  | nil => intro es; rfl
  | cons b bs ih =>
    intro es
    rw [updateBulletsLoop]
    by_cases hd : b.dead
    · rw [if_pos hd]
      exact ih es
    · rw [if_neg hd]
      dsimp only
      rw [ih _, bulletHit_length]

theorem phaseBullets_fields (s : GameState) :
    (phaseBullets s).cursor = s.cursor ∧ (phaseBullets s).runOver = s.runOver ∧
      (phaseBullets s).allCleared = s.allCleared ∧
      (phaseBullets s).hurtCD = s.hurtCD ∧
      (phaseBullets s).player.hp = s.player.hp ∧
      (phaseBullets s).player.p = s.player.p ∧
      (phaseBullets s).player.r = s.player.r ∧
      (∀ c, ((phaseBullets s).dungeon c).cleared = (s.dungeon c).cleared ∧
        ((phaseBullets s).dungeon c).exists' = (s.dungeon c).exists' ∧
        ((phaseBullets s).dungeon c).doors = (s.dungeon c).doors ∧
        ((phaseBullets s).dungeon c).boss = (s.dungeon c).boss) ∧
      ((phaseBullets s).dungeon s.cursor).enemies.length =
        (s.dungeon s.cursor).enemies.length := by
  refine ⟨rfl, rfl, rfl, rfl, rfl, rfl, rfl, ?_, ?_⟩
  · intro c
    show ((updateRoom s.dungeon s.cursor _) c).cleared = _ ∧
      ((updateRoom s.dungeon s.cursor _) c).exists' = _ ∧
      ((updateRoom s.dungeon s.cursor _) c).doors = _ ∧
      ((updateRoom s.dungeon s.cursor _) c).boss = _
    by_cases hc : c = s.cursor
    · rw [hc, updateRoom_same]
      exact ⟨rfl, rfl, rfl, rfl⟩
    · rw [updateRoom_other _ _ _ _ hc]
      exact ⟨rfl, rfl, rfl, rfl⟩
  · show ((updateRoom s.dungeon s.cursor _) s.cursor).enemies.length = _
    rw [updateRoom_same]
    exact updateBulletsLoop_length s.player.shots (s.dungeon s.cursor).enemies

theorem phaseHit_fields (s : GameState) :
    (phaseHit s).dungeon = s.dungeon ∧ (phaseHit s).cursor = s.cursor ∧
      (phaseHit s).allCleared = s.allCleared ∧
      (phaseHit s).player.hp =
        (hitLoop s.player.r (s.dungeon s.cursor).enemies s.player.p
          s.player.hp s.hurtCD s.runOver).2.1 ∧
      (phaseHit s).hurtCD =
        (hitLoop s.player.r (s.dungeon s.cursor).enemies s.player.p
          s.player.hp s.hurtCD s.runOver).2.2.1 ∧
      (phaseHit s).runOver =
        (hitLoop s.player.r (s.dungeon s.cursor).enemies s.player.p
          s.player.hp s.hurtCD s.runOver).2.2.2 :=
  ⟨rfl, rfl, rfl, rfl, rfl, rfl⟩

theorem attemptDoor_fields (s : GameState) (rm : Room) (d : Dir)
    (t : GameState) (h : attemptDoor s rm d = some t) :
    t.dungeon = s.dungeon ∧ t.runOver = s.runOver ∧
      t.allCleared = s.allCleared ∧ t.hurtCD = s.hurtCD ∧ t.start = s.start ∧
      t.player.hp = s.player.hp ∧ t.player.shots = s.player.shots := by
  unfold attemptDoor at h
  cases hnb : nbrCell s.cursor d with
  | none => rw [hnb] at h; exact absurd h (by simp)
  | some c' =>
    rw [hnb] at h
    have h2 : (if (rm.doors d && (s.dungeon c').exists') = true
        then tryGo s rm d c' else none) = some t := h
    by_cases hg : (rm.doors d && (s.dungeon c').exists') = true
    · rw [if_pos hg] at h2
      unfold tryGo at h2
      by_cases hdg : rm.doors d
      · rw [if_neg (by simp [hdg])] at h2
        by_cases hovl : circleRectOverlap s.player.p s.player.r
            (inflateRect (doorRect d) 10) = true
        · rw [if_pos hovl] at h2
          have ht := Option.some.inj h2
          rw [← ht]
          exact ⟨rfl, rfl, rfl, rfl, rfl, rfl, rfl⟩
        · rw [if_neg hovl] at h2
          exact absurd h2 (by simp)
      · rw [if_pos (by simp [hdg])] at h2
        exact absurd h2 (by simp)
    · rw [if_neg hg] at h2
      exact absurd h2 (by simp)

theorem chain4_cases {α : Type} (a b c d : Option α) (s : α) :
    (((a.orElse fun _ => b).orElse fun _ => c).orElse fun _ => d).getD s = s ∨
      a = some ((((a.orElse fun _ => b).orElse fun _ => c).orElse
        fun _ => d).getD s) ∨
      b = some ((((a.orElse fun _ => b).orElse fun _ => c).orElse
        fun _ => d).getD s) ∨
      c = some ((((a.orElse fun _ => b).orElse fun _ => c).orElse
        fun _ => d).getD s) ∨
      d = some ((((a.orElse fun _ => b).orElse fun _ => c).orElse
        fun _ => d).getD s) := by
  cases a <;> cases b <;> cases c <;> cases d <;> simp [Option.orElse]

theorem phaseDoors_cases (s : GameState) :
    phaseDoors s = s ∨
      ∃ d, attemptDoor s (s.dungeon s.cursor) d = some (phaseDoors s) := by
  have hx : phaseDoors s = (if !(s.dungeon s.cursor).cleared then s else
      ((((attemptDoor s (s.dungeon s.cursor) Dir.up).orElse fun _ =>
          attemptDoor s (s.dungeon s.cursor) Dir.down).orElse fun _ =>
          attemptDoor s (s.dungeon s.cursor) Dir.left).orElse fun _ =>
          attemptDoor s (s.dungeon s.cursor) Dir.right).getD s) := rfl
  by_cases hcl : (s.dungeon s.cursor).cleared = true
  · rw [hx, if_neg (by simp [hcl])]
    rcases chain4_cases (attemptDoor s (s.dungeon s.cursor) Dir.up)
      (attemptDoor s (s.dungeon s.cursor) Dir.down)
      (attemptDoor s (s.dungeon s.cursor) Dir.left)
      (attemptDoor s (s.dungeon s.cursor) Dir.right) s with h | h | h | h | h
    · exact Or.inl h
    · exact Or.inr ⟨Dir.up, h⟩
    · exact Or.inr ⟨Dir.down, h⟩
    · exact Or.inr ⟨Dir.left, h⟩
    · exact Or.inr ⟨Dir.right, h⟩
  · rw [hx, if_pos (by simp [Bool.eq_false_iff.mpr hcl])]
    exact Or.inl rfl

theorem phaseDoors_fields (s : GameState) :
    (phaseDoors s).dungeon = s.dungeon ∧ (phaseDoors s).runOver = s.runOver ∧
      (phaseDoors s).allCleared = s.allCleared ∧
      (phaseDoors s).hurtCD = s.hurtCD ∧ (phaseDoors s).start = s.start ∧
      (phaseDoors s).player.hp = s.player.hp ∧
      (phaseDoors s).player.shots = s.player.shots := by
  rcases phaseDoors_cases s with h | ⟨d, h⟩
  · rw [h]
    exact ⟨rfl, rfl, rfl, rfl, rfl, rfl, rfl⟩
  · exact attemptDoor_fields s (s.dungeon s.cursor) d (phaseDoors s) h

theorem phaseCleared_fields (s : GameState) :
    (phaseCleared s).dungeon = s.dungeon ∧ (phaseCleared s).cursor = s.cursor ∧
      (phaseCleared s).player = s.player ∧ (phaseCleared s).hurtCD = s.hurtCD ∧
      (phaseCleared s).runOver = (s.runOver || allRoomsCleared s.dungeon) :=
  ⟨rfl, rfl, rfl, rfl, rfl⟩

theorem phaseDeath_fields (s : GameState) :
    (phaseDeath s).dungeon = s.dungeon ∧ (phaseDeath s).cursor = s.cursor ∧
      (phaseDeath s).player = s.player ∧ (phaseDeath s).hurtCD = s.hurtCD ∧
      (phaseDeath s).runOver = (s.runOver || decide (s.player.hp ≤ 0)) := by
  unfold phaseDeath
  by_cases h : s.player.hp ≤ 0
  · rw [if_pos h]
    refine ⟨rfl, rfl, rfl, rfl, ?_⟩
    simp [h]
  · rw [if_neg h]
    refine ⟨rfl, rfl, rfl, rfl, ?_⟩
    simp [h]

/-- Moving an enemy never changes its `dead` flag: culling in
`updateEnemies` sees exactly the deaths recorded by earlier phases. -/
theorem updateEnemy_dead (pp : Vec) (e : Enemy) :
    (updateEnemy pp e).dead = e.dead := by
  unfold updateEnemy
  by_cases hd : e.dead
  · simp [hd]
  · by_cases hk : e.kind = 0
    · simp [hd, hk]
    · simp [hd, hk]

/-- The survivor list of `updateEnemies` is empty exactly when every enemy
was already dead on entry. -/
theorem filter_map_isEmpty (pp : Vec) (l : List Enemy) :
    ((l.map (updateEnemy pp)).filter fun e => !e.dead).isEmpty =
      l.all fun e => e.dead := by
  induction l with
  | nil => rfl
  | cons e l ih =>
    rw [List.map_cons, List.filter_cons, List.all_cons]
    by_cases hd : e.dead
    · rw [if_neg (by simp [updateEnemy_dead, hd])]
      rw [ih, hd, Bool.true_and]
    · rw [if_pos (by simp [updateEnemy_dead, hd])]
      rw [Bool.eq_false_iff.mpr hd, Bool.false_and]
      rfl

/-- `updateEnemies(Room&, dt)` recomputes `cleared` as the old flag OR
"every enemy on entry was dead", and never grows the enemy list; the other
room fields are untouched. -/
theorem updateEnemiesRoom_spec (pp : Vec) (r : Room) :
    (updateEnemiesRoom pp r).cleared =
        (r.cleared || r.enemies.all fun e => e.dead) ∧
      (updateEnemiesRoom pp r).enemies.length ≤ r.enemies.length ∧
      (updateEnemiesRoom pp r).exists' = r.exists' ∧
      (updateEnemiesRoom pp r).doors = r.doors ∧
      (updateEnemiesRoom pp r).boss = r.boss := by
  have hred : updateEnemiesRoom pp r =
      (if ((r.enemies.map (updateEnemy pp)).filter fun e => !e.dead).isEmpty then
        { r with enemies := (r.enemies.map (updateEnemy pp)).filter fun e => !e.dead,
                 cleared := true }
      else
        { r with
          enemies := (r.enemies.map (updateEnemy pp)).filter fun e => !e.dead }) :=
    rfl
  have hlen : ((r.enemies.map (updateEnemy pp)).filter fun e => !e.dead).length ≤
      r.enemies.length := by
    calc ((r.enemies.map (updateEnemy pp)).filter fun e => !e.dead).length
        ≤ (r.enemies.map (updateEnemy pp)).length := List.length_filter_le _ _
      _ = r.enemies.length := List.length_map _ _
  rw [hred]
  by_cases he :
      (((r.enemies.map (updateEnemy pp)).filter fun e => !e.dead).isEmpty) = true
  · rw [if_pos he]
    refine ⟨?_, hlen, rfl, rfl, rfl⟩
    have hall : (r.enemies.all fun e => e.dead) = true := by
      rw [← filter_map_isEmpty pp]; exact he
    rw [hall, Bool.or_true]
  · rw [if_neg he]
    refine ⟨?_, hlen, rfl, rfl, rfl⟩
    have hall : (r.enemies.all fun e => e.dead) = false := by
      rw [← filter_map_isEmpty pp]; exact Bool.eq_false_iff.mpr he
    rw [hall, Bool.or_false]

/-- The anatomy of one live tick: the phase chain in code order, the final
dungeon being exactly the mid-tick dungeon (the door/cleared/death phases
never touch rooms), the final hp / timer / run-over flag read off the
contact pass, and the mid-tick state's relation to the tick's start —
in particular the current room's `cleared` flag after the tick is the
start-of-tick flag OR "all enemies were dead at start of tick" (the
recompute runs before bullet collisions land). -/
theorem stepTick_summary (i : Input) (s : GameState) (hro : s.runOver = false) :
    stepTick i s = phaseDeath (phaseCleared (phaseDoors (phaseHit (midState i s)))) ∧
      (stepTick i s).dungeon = (midState i s).dungeon ∧
      (stepTick i s).player.hp = (hitResult i s).2.1 ∧
      (stepTick i s).hurtCD = (hitResult i s).2.2.1 ∧
      (stepTick i s).runOver =
        (((hitResult i s).2.2.2 || allRoomsCleared (midState i s).dungeon) ||
          decide ((hitResult i s).2.1 ≤ 0)) ∧
      (midState i s).cursor = s.cursor ∧
      (midState i s).player.hp = s.player.hp ∧
      (midState i s).hurtCD = s.hurtCD ∧
      (midState i s).runOver = false ∧
      ((midState i s).dungeon s.cursor).enemies.length ≤
        (s.dungeon s.cursor).enemies.length ∧
      ((midState i s).dungeon s.cursor).cleared =
        ((s.dungeon s.cursor).cleared ||
          (s.dungeon s.cursor).enemies.all fun e => e.dead) := by
  have h1 := phaseInput_fields i s
  have h2 := phaseEnemies_fields (phaseInput i s)
  have h3 := phaseBullets_fields (phaseEnemies (phaseInput i s))
  have h4 := phaseHit_fields (midState i s)
  have h5 := phaseDoors_fields (phaseHit (midState i s))
  have h6 := phaseCleared_fields (phaseDoors (phaseHit (midState i s)))
  have h7 := phaseDeath_fields (phaseCleared (phaseDoors (phaseHit (midState i s))))
  have hstep : stepTick i s =
      phaseDeath (phaseCleared (phaseDoors (phaseHit (midState i s)))) := by
    rw [stepTick, if_neg (by simp [hro])]
    rfl
  have hcur : (midState i s).cursor = s.cursor := by
    calc (midState i s).cursor
        = (phaseEnemies (phaseInput i s)).cursor := h3.1
      _ = (phaseInput i s).cursor := h2.2.1
      _ = s.cursor := h1.2.1
  have hhp : (midState i s).player.hp = s.player.hp := by
    calc (midState i s).player.hp
        = (phaseEnemies (phaseInput i s)).player.hp := h3.2.2.2.2.1
      _ = (phaseInput i s).player.hp := congrArg Player.hp h2.1
      _ = s.player.hp := h1.2.2.2.2.2
  have hcd : (midState i s).hurtCD = s.hurtCD := by
    calc (midState i s).hurtCD
        = (phaseEnemies (phaseInput i s)).hurtCD := h3.2.2.2.1
      _ = (phaseInput i s).hurtCD := h2.2.2.2.2
      _ = s.hurtCD := h1.2.2.2.2.1
  have hrom : (midState i s).runOver = false := by
    calc (midState i s).runOver
        = (phaseEnemies (phaseInput i s)).runOver := h3.2.1
      _ = (phaseInput i s).runOver := h2.2.2.1
      _ = s.runOver := h1.2.2.1
      _ = false := hro
  have hen : (phaseEnemies (phaseInput i s)).dungeon =
      updateRoom s.dungeon s.cursor
        (updateEnemiesRoom (phaseInput i s).player.p) := by
    show updateRoom (phaseInput i s).dungeon (phaseInput i s).cursor
      (updateEnemiesRoom (phaseInput i s).player.p) = _
    rw [h1.1, h1.2.1]
  have henc : (phaseEnemies (phaseInput i s)).dungeon s.cursor =
      updateEnemiesRoom (phaseInput i s).player.p (s.dungeon s.cursor) := by
    rw [hen, updateRoom_same]
  have hmlen : ((midState i s).dungeon s.cursor).enemies.length ≤
      (s.dungeon s.cursor).enemies.length := by
    have hb : ((midState i s).dungeon
          (phaseEnemies (phaseInput i s)).cursor).enemies.length =
        ((phaseEnemies (phaseInput i s)).dungeon
          (phaseEnemies (phaseInput i s)).cursor).enemies.length :=
      h3.2.2.2.2.2.2.2.2
    rw [h2.2.1, h1.2.1] at hb
    rw [hb, henc]
    exact (updateEnemiesRoom_spec _ _).2.1
  have hmclr : ((midState i s).dungeon s.cursor).cleared =
      ((s.dungeon s.cursor).cleared ||
        (s.dungeon s.cursor).enemies.all fun e => e.dead) := by
    have hb : ((midState i s).dungeon s.cursor).cleared =
        ((phaseEnemies (phaseInput i s)).dungeon s.cursor).cleared :=
      (h3.2.2.2.2.2.2.2.1 s.cursor).1
    rw [hb, henc]
    exact (updateEnemiesRoom_spec _ _).1
  have hdg : (stepTick i s).dungeon = (midState i s).dungeon := by
    rw [hstep]
    calc (phaseDeath (phaseCleared (phaseDoors (phaseHit (midState i s))))).dungeon
        = (phaseCleared (phaseDoors (phaseHit (midState i s)))).dungeon := h7.1
      _ = (phaseDoors (phaseHit (midState i s))).dungeon := h6.1
      _ = (phaseHit (midState i s)).dungeon := h5.1
      _ = (midState i s).dungeon := h4.1
  have hfhp : (stepTick i s).player.hp = (hitResult i s).2.1 := by
    rw [hstep]
    calc (phaseDeath (phaseCleared (phaseDoors (phaseHit (midState i s))))).player.hp
        = (phaseCleared (phaseDoors (phaseHit (midState i s)))).player.hp :=
          congrArg Player.hp h7.2.2.1
      _ = (phaseDoors (phaseHit (midState i s))).player.hp :=
          congrArg Player.hp h6.2.2.1
      _ = (phaseHit (midState i s)).player.hp := h5.2.2.2.2.2.1
      _ = (hitResult i s).2.1 := h4.2.2.2.1
  have hfcd : (stepTick i s).hurtCD = (hitResult i s).2.2.1 := by
    rw [hstep]
    calc (phaseDeath (phaseCleared (phaseDoors (phaseHit (midState i s))))).hurtCD
        = (phaseCleared (phaseDoors (phaseHit (midState i s)))).hurtCD := h7.2.2.2.1
      _ = (phaseDoors (phaseHit (midState i s))).hurtCD := h6.2.2.2.1
      _ = (phaseHit (midState i s)).hurtCD := h5.2.2.2.1
      _ = (hitResult i s).2.2.1 := h4.2.2.2.2.1
  have hfro : (stepTick i s).runOver =
      (((hitResult i s).2.2.2 || allRoomsCleared (midState i s).dungeon) ||
        decide ((hitResult i s).2.1 ≤ 0)) := by
    rw [hstep]
    have ha : (phaseDoors (phaseHit (midState i s))).runOver =
        (hitResult i s).2.2.2 := by
      rw [h5.2.1]; exact h4.2.2.2.2.2
    have hb : (phaseDoors (phaseHit (midState i s))).dungeon =
        (midState i s).dungeon := by
      rw [h5.1]; exact h4.1
    have hc : (phaseCleared (phaseDoors (phaseHit (midState i s)))).player.hp =
        (hitResult i s).2.1 := by
      rw [congrArg Player.hp h6.2.2.1, h5.2.2.2.2.2.1]
      exact h4.2.2.2.1
    rw [h7.2.2.2.2, h6.2.2.2.2, ha, hb, hc]
  exact ⟨hstep, hdg, hfhp, hfcd, hfro, hcur, hhp, hcd, hrom, hmlen, hmclr⟩

/-- C1 (counterexample to the claimed phase order): in `cxState` the
centre room's only enemy is live at the start of the tick and is killed by
a bullet during the tick (every enemy is dead at the end of the tick), yet
the room's `cleared` flag is still false after the tick and the cursor has
not moved — because the cleared recompute (inside `updateEnemies`) runs
*before* bullet integration & collision, not after it as claimed, the
room's doors do not unlock within the same tick. -/
theorem tick_order_counterexample :
    (cxState.dungeon cxState.cursor).enemies.all (fun e => e.dead) = false ∧
      ((stepTick input0 cxState).dungeon cxState.cursor).enemies.all
        (fun e => e.dead) = true ∧
      ((stepTick input0 cxState).dungeon cxState.cursor).enemies.length = 1 ∧
      ((stepTick input0 cxState).dungeon cxState.cursor).cleared = false ∧
      (stepTick input0 cxState).cursor = cxState.cursor := by
  with_unfolding_all decide

/-- C1 (amended): within one live tick, enemy death culling and the
cleared recompute happen together *before* bullet integration & collision
(so the flag a tick leaves on the current room — and the flag the
door-transition check reads — is the start-of-tick flag OR "all enemies
were already dead at the start of the tick", ignoring this tick's bullet
kills), and the run-state hp/cleared checks happen after all entity
mutation for the tick. -/
theorem tick_phase_order (i : Input) (s : GameState) (hro : s.runOver = false)
    (hlen : (s.dungeon s.cursor).enemies.length ≤ 108) :
    ((stepTick i s).dungeon s.cursor).cleared =
        ((s.dungeon s.cursor).cleared ||
          (s.dungeon s.cursor).enemies.all fun e => e.dead) ∧
      ((phaseHit (midState i s)).dungeon s.cursor).cleared =
        ((s.dungeon s.cursor).cleared ||
          (s.dungeon s.cursor).enemies.all fun e => e.dead) ∧
      (stepTick i s).runOver =
        (allRoomsCleared (stepTick i s).dungeon ||
          decide ((stepTick i s).player.hp ≤ 0)) := by
  obtain ⟨hstep, hdg, hfhp, hfcd, hfro, hcur, hhp, hcd, hrom, hmlen, hmclr⟩ :=
    stepTick_summary i s hro
  refine ⟨?_, ?_, ?_⟩
  · rw [hdg]; exact hmclr
  · rw [(phaseHit_fields (midState i s)).1]; exact hmclr
  · have hlist : ((midState i s).dungeon (midState i s).cursor).enemies.length ≤
        108 := by
      rw [hcur]; exact le_trans hmlen hlen
    have hkey : (hitResult i s).2.2.2 = true → (hitResult i s).2.1 ≤ 0 := by
      intro h
      rcases hitLoop_ro (midState i s).player.r
          ((midState i s).dungeon (midState i s).cursor).enemies
          (midState i s).player.p (midState i s).player.hp
          (midState i s).hurtCD (midState i s).runOver hlist h with h' | h'
      · rw [hrom] at h'; exact absurd h' (by simp)
      · exact h'
    rw [hfro, hdg, hfhp]
    by_cases hb : (hitResult i s).2.2.2 = true
    · have hhp0 := hkey hb
      rw [hb]
      simp [hhp0]
    · rw [Bool.eq_false_iff.mpr hb]
      simp

/-- Witness for the amended C1 theorem at the concrete state `cxState`. -/
theorem tick_phase_order_witness :
    ((stepTick input0 cxState).dungeon cxState.cursor).cleared =
        ((cxState.dungeon cxState.cursor).cleared ||
          (cxState.dungeon cxState.cursor).enemies.all fun e => e.dead) ∧
      ((phaseHit (midState input0 cxState)).dungeon cxState.cursor).cleared =
        ((cxState.dungeon cxState.cursor).cleared ||
          (cxState.dungeon cxState.cursor).enemies.all fun e => e.dead) ∧
      (stepTick input0 cxState).runOver =
        (allRoomsCleared (stepTick input0 cxState).dungeon ||
          decide ((stepTick input0 cxState).player.hp ≤ 0)) :=
  tick_phase_order input0 cxState rfl (by with_unfolding_all decide)

/-- C2 (counterexample to "accepted in any run state"): in the live state
`c2State` (run state `Active`, hp already reduced to 3) the restart key is
a no-op — nothing is reinitialized and the player's hp stays at 3 rather
than returning to the maximum of 6, because the handler is gated on
`g_runOver`. -/
theorem restart_midrun_counterexample :
    stateOf c2State = RunState.Active ∧ c2State.player.hp = 3 ∧
      handleRestart true rng0 c2State = c2State ∧
      (handleRestart true rng0 c2State).player.hp ≠ 6 := by
  refine ⟨rfl, rfl, rfl, ?_⟩
  with_unfolding_all decide

/-- C2 (amended): the restart key is accepted only once the run is over
(`g_runOver` set, i.e. run state `Cleared` or `Dead`); it then fully
reinitializes the run — freshly generated dungeon whose existing-room
graph is a tree, cursor and start at spawn, spawn room cleared, player at
the maximum 6 hp, run state `Active` — while in a live run
(`runOver = false`) the restart key changes nothing. -/
theorem restart_spec :
    (∀ (rng : RNG) (s : GameState), s.runOver = true →
      (handleRestart true rng s).cursor = spawnCell ∧
      (handleRestart true rng s).start = spawnCell ∧
      (handleRestart true rng s).dungeon = (carveDungeon rng).1 ∧
      ((handleRestart true rng s).dungeon spawnCell).cleared = true ∧
      (handleRestart true rng s).player.hp = 6 ∧
      (handleRestart true rng s).runOver = false ∧
      stateOf (handleRestart true rng s) = RunState.Active ∧
      (existGraph (handleRestart true rng s).dungeon).IsTree) ∧
    (∀ (rng : RNG) (rp : Bool) (s : GameState), s.runOver = false →
      handleRestart rp rng s = s) := by
  constructor
  · intro rng s hro
    have hx : handleRestart true rng s =
        (if s.runOver && true then resetRun rng s else s) := rfl
    rw [hx, hro]
    rw [if_pos (by simp)]
    refine ⟨rfl, rfl, rfl, ?_, rfl, rfl, rfl, ?_⟩
    · exact (carveDungeon_population rng).1.1
    · obtain ⟨hsp, hdoorsOk, hreach, hacyclic, _, _, _⟩ := carveDungeon_structure rng
      exact existGraph_isTree _ hsp hdoorsOk hreach hacyclic
  · intro rng rp s hro
    have hx : handleRestart rp rng s =
        (if s.runOver && rp then resetRun rng s else s) := rfl
    rw [hx, hro]
    simp

/-- Witness for the amended C2 theorem: restart acts on the finished run
`overState` and is ignored in the live run `c2State`. -/
theorem restart_spec_witness :
    (handleRestart true rng0 overState).cursor = spawnCell ∧
      (handleRestart true rng0 overState).player.hp = 6 ∧
      stateOf (handleRestart true rng0 overState) = RunState.Active ∧
      (existGraph (handleRestart true rng0 overState).dungeon).IsTree ∧
      handleRestart false rng0 c2State = c2State :=
  ⟨(restart_spec.1 rng0 overState rfl).1,
   (restart_spec.1 rng0 overState rfl).2.2.2.2.1,
   (restart_spec.1 rng0 overState rfl).2.2.2.2.2.2.1,
   (restart_spec.1 rng0 overState rfl).2.2.2.2.2.2.2,
   restart_spec.2 rng0 false c2State rfl⟩

/-- C6: over one live tick the player's hp never increases; starting from
any reachable live state (hp ≥ 1, as every live state has), it never drops
below 0; and a tick in which hp reaches 0 ends with the run state `Dead`
within that same tick. -/
theorem hp_active_invariant (i : Input) (s : GameState) (hro : s.runOver = false)
    (hhp1 : 1 ≤ s.player.hp)
    (hlen : (s.dungeon s.cursor).enemies.length ≤ 108) :
    (stepTick i s).player.hp ≤ s.player.hp ∧ 0 ≤ (stepTick i s).player.hp ∧
      ((stepTick i s).player.hp = 0 → stateOf (stepTick i s) = RunState.Dead) := by
  obtain ⟨hstep, hdg, hfhp, hfcd, hfro, hcur, hhp, hcd, hrom, hmlen, hmclr⟩ :=
    stepTick_summary i s hro
  have hlist : ((midState i s).dungeon (midState i s).cursor).enemies.length ≤
      108 := by
    rw [hcur]; exact le_trans hmlen hlen
  have hb := hitLoop_hp_bound (midState i s).player.r
    ((midState i s).dungeon (midState i s).cursor).enemies
    (midState i s).player.p (midState i s).player.hp
    (midState i s).hurtCD (midState i s).runOver hlist
  have hb1 : (midState i s).player.hp - 1 ≤ (hitResult i s).2.1 := hb.1
  have hb2 : (hitResult i s).2.1 ≤ (midState i s).player.hp := hb.2
  rw [hhp] at hb1 hb2
  refine ⟨?_, ?_, ?_⟩
  · rw [hfhp]; exact hb2
  · rw [hfhp]; omega
  · intro h0
    have hle : (hitResult i s).2.1 ≤ 0 := by rw [hfhp] at h0; omega
    have hrot : (stepTick i s).runOver = true := by
      rw [hfro]; simp [hle]
    unfold stateOf
    rw [hrot, if_neg (by simp), if_pos (le_of_eq h0)]

/-- Witness for the C6 theorem at the concrete live state `c2State`. -/
theorem hp_active_invariant_witness :
    (stepTick input0 c2State).player.hp ≤ c2State.player.hp ∧
      0 ≤ (stepTick input0 c2State).player.hp ∧
      ((stepTick input0 c2State).player.hp = 0 →
        stateOf (stepTick input0 c2State) = RunState.Dead) :=
  hp_active_invariant input0 c2State rfl (by with_unfolding_all decide)
    (by with_unfolding_all decide)

/-- C7 (counterexample to "while the timer is positive no contact damage
applies"): in `c7State` the invulnerability timer starts the tick positive
(one tick, `dt`), two live enemies overlap the player at the contact
check, and the player still loses 1 hp in that tick — the first
overlapping enemy ticks the timer down to 0 and the second then lands a
hit, because the timer is decremented once per overlapping enemy inside
the same per-tick loop. -/
theorem invuln_timer_counterexample :
    0 < c7State.hurtCD ∧
      liveOverlapCount (midState input0 c7State).player.r
        (midState input0 c7State).player.p
        ((midState input0 c7State).dungeon c7State.cursor).enemies = 2 ∧
      (stepTick input0 c7State).player.hp = c7State.player.hp - 1 := by
  with_unfolding_all decide

/-- C7 (amended): if the timer is ≤ 0 at the start of a tick and at least
one live enemy overlaps the player at the contact check, the player loses
exactly 1 hp (not one per overlapping enemy), the knockback moves the
player 20 px away from the first overlapping live enemy in list order, and
the timer is rearmed to the 0.9 s cooldown less one `dt` decrement for the
hitting enemy and at most one per later overlapping enemy; and no damage
is dealt in a tick whose starting timer is at least `dt` per enemy in the
current room (per-enemy decrements, not real time, consume it). -/
theorem contact_damage :
    (∀ (i : Input) (s : GameState), s.runOver = false → s.hurtCD ≤ 0 →
      (s.dungeon s.cursor).enemies.length ≤ 108 →
      1 ≤ liveOverlapCount (midState i s).player.r (midState i s).player.p
          ((midState i s).dungeon s.cursor).enemies →
      (stepTick i s).player.hp = s.player.hp - 1 ∧
      (∃ e, firstLiveOverlap (midState i s).player.r (midState i s).player.p
          ((midState i s).dungeon s.cursor).enemies = some e ∧
        (phaseHit (midState i s)).player.p =
          (midState i s).player.p.add
            ((norm ((midState i s).player.p.sub e.p)).smul 20)) ∧
      9 / 10 - dt * 108 ≤ (stepTick i s).hurtCD ∧
      (stepTick i s).hurtCD ≤ 9 / 10 - dt) ∧
    (∀ (i : Input) (s : GameState), s.runOver = false →
      dt * ((s.dungeon s.cursor).enemies.length : ℚ) ≤ s.hurtCD →
      (stepTick i s).player.hp = s.player.hp) := by
  constructor
  · intro i s hro hcd0 hlen hcnt
    obtain ⟨hstep, hdg, hfhp, hfcd, hfro, hcur, hhp, hcd, hrom, hmlen, hmclr⟩ :=
      stepTick_summary i s hro
    have hlist : ((midState i s).dungeon (midState i s).cursor).enemies.length ≤
        108 := by
      rw [hcur]; exact le_trans hmlen hlen
    have hcdm : (midState i s).hurtCD ≤ 0 := by rw [hcd]; exact hcd0
    have hcnt' : 1 ≤ liveOverlapCount (midState i s).player.r
        (midState i s).player.p
        ((midState i s).dungeon (midState i s).cursor).enemies := by
      rw [hcur]; exact hcnt
    obtain ⟨e, n, hfirst, hn, heq⟩ := hitLoop_hit (midState i s).player.r
      ((midState i s).dungeon (midState i s).cursor).enemies
      (midState i s).player.p (midState i s).player.hp
      (midState i s).hurtCD (midState i s).runOver hcdm hlist hcnt'
    have hhr : hitResult i s =
        ((midState i s).player.p.add
            ((norm ((midState i s).player.p.sub e.p)).smul 20),
          (midState i s).player.hp - 1,
          9 / 10 - dt - dt * (n : ℚ),
          (midState i s).runOver ||
            decide ((midState i s).player.hp - 1 ≤ 0)) := heq
    have hn107 : (n : ℚ) ≤ 107 := by
      have : n ≤ 107 := by omega
      exact_mod_cast this
    have hn0 : (0 : ℚ) ≤ (n : ℚ) := Nat.cast_nonneg n
    have hdt : dt = 1 / 120 := rfl
    refine ⟨?_, ⟨e, ?_, ?_⟩, ?_, ?_⟩
    · rw [hfhp, hhr]
      show (midState i s).player.hp - 1 = s.player.hp - 1
      rw [hhp]
    · rw [← hcur]; exact hfirst
    · have hpp : (phaseHit (midState i s)).player.p = (hitResult i s).1 := rfl
      rw [hpp, hhr]
    · rw [hfcd, hhr]
      show (9 : ℚ) / 10 - dt * 108 ≤ 9 / 10 - dt - dt * (n : ℚ)
      rw [hdt]
      linarith
    · rw [hfcd, hhr]
      show (9 : ℚ) / 10 - dt - dt * (n : ℚ) ≤ 9 / 10 - dt
      rw [hdt]
      linarith
  · intro i s hro hcover
    obtain ⟨hstep, hdg, hfhp, hfcd, hfro, hcur, hhp, hcd, hrom, hmlen, hmclr⟩ :=
      stepTick_summary i s hro
    have hcast : (((midState i s).dungeon s.cursor).enemies.length : ℚ) ≤
        ((s.dungeon s.cursor).enemies.length : ℚ) := by exact_mod_cast hmlen
    have hlist : dt * (((midState i s).dungeon
        (midState i s).cursor).enemies.length : ℚ) ≤ (midState i s).hurtCD := by
      rw [hcd, hcur]
      have h2 : dt * (((midState i s).dungeon s.cursor).enemies.length : ℚ) ≤
          dt * ((s.dungeon s.cursor).enemies.length : ℚ) :=
        mul_le_mul_of_nonneg_left hcast (le_of_lt dt_pos)
      linarith
    have heq := hitLoop_no_hit (midState i s).player.r
      ((midState i s).dungeon (midState i s).cursor).enemies
      (midState i s).player.p (midState i s).player.hp
      (midState i s).hurtCD (midState i s).runOver hlist
    have hhr : hitResult i s =
        ((midState i s).player.p, (midState i s).player.hp,
          (midState i s).hurtCD -
            dt * ((liveOverlapCount (midState i s).player.r
              (midState i s).player.p
              ((midState i s).dungeon (midState i s).cursor).enemies : ℕ) : ℚ),
          (midState i s).runOver) := heq
    rw [hfhp, hhr]
    exact hhp

/-- Witness for the amended C7 theorem: a hit is dealt from `c7StateHit`
(timer at 0, two overlapping enemies) and no damage is dealt from
`c10State` (timer amply covering both enemies). -/
theorem contact_damage_witness :
    (stepTick input0 c7StateHit).player.hp = c7StateHit.player.hp - 1 ∧
      (stepTick input0 c10State).player.hp = c10State.player.hp :=
  ⟨(contact_damage.1 input0 c7StateHit rfl (by with_unfolding_all decide)
      (by with_unfolding_all decide) (by with_unfolding_all decide)).1,
   contact_damage.2 input0 c10State rfl (by with_unfolding_all decide)⟩

/-- C8: while the current room's `cleared` flag is false the whole
door-and-transition phase is the identity — for every player position and
direction no traversal succeeds, the cursor and player are unchanged, and
the rejected attempt raises no error (the phase is total). -/
theorem locked_door_noop (s : GameState)
    (h : (s.dungeon s.cursor).cleared = false) :
    phaseDoors s = s := by
  have hx : phaseDoors s = (if !(s.dungeon s.cursor).cleared then s else
      ((((attemptDoor s (s.dungeon s.cursor) Dir.up).orElse fun _ =>
          attemptDoor s (s.dungeon s.cursor) Dir.down).orElse fun _ =>
          attemptDoor s (s.dungeon s.cursor) Dir.left).orElse fun _ =>
          attemptDoor s (s.dungeon s.cursor) Dir.right).getD s) := rfl
  rw [hx, if_pos (by simp [h])]

/-- Witness for the C8 theorem: in `cxState` the player stands inside the
(inflated) left door rectangle of an uncleared room with a connected
neighbour behind it, and the phase still changes nothing. -/
theorem locked_door_noop_witness : phaseDoors cxState = cxState :=
  locked_door_noop cxState (by with_unfolding_all decide)

/-- C10: the invulnerability timer is mutated only by enemy-overlap
processing — a live tick whose contact check meets no live overlapping
enemy leaves it unchanged (it does not count down with real time); within
one contact pass that stays above zero it is decremented by `dt` once per
live overlapping enemy; and a run restart does not reset it (the C++
`static` local persists across runs). -/
theorem invuln_timer_behaviour :
    (∀ (i : Input) (s : GameState), s.runOver = false →
      liveOverlapCount (midState i s).player.r (midState i s).player.p
        ((midState i s).dungeon s.cursor).enemies = 0 →
      (stepTick i s).hurtCD = s.hurtCD) ∧
    (∀ (pr : ℚ) (es : List Enemy) (pp : Vec) (hp : ℤ) (cd : ℚ) (ro : Bool),
      dt * es.length ≤ cd →
      (hitLoop pr es pp hp cd ro).2.2.1 =
        cd - dt * (liveOverlapCount pr pp es : ℚ)) ∧
    (∀ (rng : RNG) (s : GameState), (resetRun rng s).hurtCD = s.hurtCD) := by
  refine ⟨?_, ?_, ?_⟩
  · intro i s hro hcnt
    obtain ⟨hstep, hdg, hfhp, hfcd, hfro, hcur, hhp, hcd, hrom, hmlen, hmclr⟩ :=
      stepTick_summary i s hro
    have hcnt' : liveOverlapCount (midState i s).player.r (midState i s).player.p
        ((midState i s).dungeon (midState i s).cursor).enemies = 0 := by
      rw [hcur]; exact hcnt
    have heq := hitLoop_no_overlap (midState i s).player.r
      ((midState i s).dungeon (midState i s).cursor).enemies
      (midState i s).player.p (midState i s).player.hp
      (midState i s).hurtCD (midState i s).runOver hcnt'
    have hhr : hitResult i s =
        ((midState i s).player.p, (midState i s).player.hp,
          (midState i s).hurtCD, (midState i s).runOver) := heq
    rw [hfcd, hhr]
    exact hcd
  · intro pr es pp hp cd ro hcover
    rw [hitLoop_no_hit pr es pp hp cd ro hcover]
  · intro rng s
    rfl

/-- Witness for the C10 theorem: a tick of `c2State` with no overlap
leaves the timer at 0, an empty contact pass decrements by `dt` per (zero)
overlaps, and a restart from `c2State` keeps the timer. -/
theorem invuln_timer_behaviour_witness :
    (stepTick input0 c2State).hurtCD = c2State.hurtCD ∧
      (hitLoop 12 [] ⟨480, 270⟩ 6 1 false).2.2.1 =
        1 - dt * ((liveOverlapCount 12 ⟨480, 270⟩ [] : ℕ) : ℚ) ∧
      (resetRun rng0 c2State).hurtCD = c2State.hurtCD :=
  ⟨invuln_timer_behaviour.1 input0 c2State rfl (by with_unfolding_all decide),
   invuln_timer_behaviour.2.1 12 [] ⟨480, 270⟩ 6 1 false
     (by with_unfolding_all decide),
   invuln_timer_behaviour.2.2 rng0 c2State⟩

/-- Witness for the C4 theorem: in the carve outcome of the all-zero
random streams the boss room exists, is unique, and carries the properties
at a concrete cell, and the scenario conjunct is applied at `(2, 0)`. -/
theorem boss_placement_witness :
    ((bossPhase gScenario) (⟨2, by decide⟩, ⟨0, by decide⟩)).boss = true :=
  ((boss_placement rng0).2 (⟨2, by decide⟩, ⟨0, by decide⟩)).mpr rfl

/-- Witness for the C9 theorem: in the carve outcome of the all-zero
random streams the room `(3, 2)` exists, is not spawn and not boss, and
its enemy count lands in `[2, 5]`. -/
theorem population_after_generation_witness :
    2 ≤ (((carveDungeon rng0).1 (⟨3, by decide⟩, ⟨2, by decide⟩)).enemies).length ∧
      (((carveDungeon rng0).1 (⟨3, by decide⟩, ⟨2, by decide⟩)).enemies).length ≤ 5 :=
  ((population_after_generation rng0).2.1 (⟨3, by decide⟩, ⟨2, by decide⟩)
      (by with_unfolding_all decide) (by with_unfolding_all decide)).2
    (by with_unfolding_all decide)

end Isaac
